import Mathlib

/-!
Verification development for the meddoc-intake-connector spreadsheet ETL.

The Python sources (src/universal_etl.py, src/app/universal_etl.py,
src/ingest.py, src/financial_etl.py) are embedded shallowly:

* a spreadsheet cell is `Cell` (`empty` models both `None` and `NaN`,
  `num` models integer-valued numeric cells — the claims under study do
  not depend on fractional or overflow behaviour — `str` models string
  cells and `other` models the remaining non-null scalar kinds such as
  dates and booleans);
* a sheet is a `List (List Cell)` of rows (pandas pads ragged rows with
  `NaN`, which we mirror by reading a missing position as `Cell.empty`);
* Python regular-expression searches over sheet names are compiled by
  hand into explicit string matchers (`\s` is modelled as the ASCII
  whitespace class, `.` as any character other than a newline, and
  `lower` acts on ASCII letters, which covers every pattern and test
  string appearing in the sources and in the claims).
-/

/-- ASCII whitespace class used to model Python `\s` and `str.strip`. -/
def pyIsSpace (c : Char) : Bool :=
  c = ' ' || c = '\t' || c = '\n' || c = '\r' || c = '\x0b' || c = '\x0c'

/-- Lower-case an ASCII letter, modelling Python `str.lower` per character. -/
def asciiLowerChar (c : Char) : Char :=
  if 'A' ≤ c && c ≤ 'Z' then Char.ofNat (c.toNat + 32) else c

/-- Upper-case an ASCII letter, modelling Python `str.upper` per character. -/
def asciiUpperChar (c : Char) : Char :=
  if 'a' ≤ c && c ≤ 'z' then Char.ofNat (c.toNat - 32) else c

/-- Model of Python `str.lower` (ASCII). -/
def asciiLower (s : String) : String :=
  (s.toList.map asciiLowerChar).asString

/-- Model of Python `str.upper` (ASCII). -/
def asciiUpper (s : String) : String :=
  (s.toList.map asciiUpperChar).asString

/-- Strip a character class from both ends of a character list. -/
def stripEnds (p : Char → Bool) (l : List Char) : List Char :=
  ((l.dropWhile p).reverse.dropWhile p).reverse

/-- Model of Python `str.strip` (whitespace, both ends). -/
def pyStrip (s : String) : String :=
  (stripEnds pyIsSpace s.toList).asString

/-- Whether `pat` is a leading segment of `l`. -/
def startsWithL : List Char → List Char → Bool
  | [], _ => true
  | _ :: _, [] => false
  | p :: ps, c :: cs => p = c && startsWithL ps cs

/-- Skip zero or more characters satisfying `ok`, then require `q` to hold
at the resulting position; models a starred character class inside a
regular expression. -/
def gapStarThen (ok : Char → Bool) (q : List Char → Bool) : List Char → Bool
  | [] => q []
  | c :: cs => q (c :: cs) || (ok c && gapStarThen ok q cs)

/-- Does `q` hold at some position of the list?  Models `re.search` for a
matcher `q` that checks a match starting at a given position. -/
def searchL (q : List Char → Bool) : List Char → Bool
  | [] => q []
  | c :: cs => q (c :: cs) || searchL q cs

/-- Model of the Python substring test `pat in hay` / `re.search` on a
literal pattern. -/
def strContains (hay pat : String) : Bool :=
  searchL (startsWithL pat.toList) hay.toList

/-- ASCII digit test. -/
def isAsciiDigit (c : Char) : Bool := '0' ≤ c && c ≤ '9'

/-- ASCII letter test, modelling Python `str.isalpha` per character. -/
def isAsciiAlpha (c : Char) : Bool :=
  ('a' ≤ c && c ≤ 'z') || ('A' ≤ c && c ≤ 'Z')

/-- Match of the regex fragment `20\d{2}` at the current position. -/
def at20dd : List Char → Bool
  | '2' :: '0' :: d1 :: d2 :: _ => isAsciiDigit d1 && isAsciiDigit d2
  | _ => false

/-- Match of `a` followed by `.*` (no newline) followed by `b`, at the
current position. -/
def atDotStar (a b : String) (l : List Char) : Bool :=
  startsWithL a.toList l &&
    gapStarThen (fun c => c != '\n') (startsWithL b.toList) (l.drop a.toList.length)

/-- Match of `a` followed by `\s*` followed by `b`, at the current
position. -/
def atWsStar (a b : String) (l : List Char) : Bool :=
  startsWithL a.toList l &&
    gapStarThen pyIsSpace (startsWithL b.toList) (l.drop a.toList.length)

/-- Match of `a` followed by `\s+` followed by `b`, at the current
position. -/
def atWsPlus (a b : String) (l : List Char) : Bool :=
  startsWithL a.toList l &&
    (match l.drop a.toList.length with
     | [] => false
     | c :: cs => pyIsSpace c && gapStarThen pyIsSpace (startsWithL b.toList) cs)

/-- Match of `20\d{2}.*plan` at the current position. -/
def atYearThenPlan (l : List Char) : Bool :=
  match l with
  | '2' :: '0' :: d1 :: d2 :: rest =>
      isAsciiDigit d1 && isAsciiDigit d2 &&
        gapStarThen (fun c => c != '\n') (startsWithL "plan".toList) rest
  | _ => false

/-- Match of `plan.*20\d{2}` at the current position. -/
def atPlanThenYear (l : List Char) : Bool :=
  startsWithL "plan".toList l &&
    gapStarThen (fun c => c != '\n') at20dd (l.drop 4)

/-- Model of `re.search` for `a.*b` over a whole string. -/
def searchDotStar (s a b : String) : Bool :=
  searchL (atDotStar a b) s.toList

/-- Model of `re.search(r'^ext\s+', s)`: the string starts with `ext`
followed by at least one whitespace character. -/
def startsExtSpace (s : String) : Bool :=
  startsWithL "ext".toList s.toList &&
    (match s.toList.drop 3 with
     | c :: _ => pyIsSpace c
     | [] => false)

/-- Model of `re.search(r'20\d{2}', s)`. -/
def has20dd (s : String) : Bool := searchL at20dd s.toList

/-- A spreadsheet cell value. -/
inductive Cell where
  | empty
  | num (n : Int)
  | str (s : String)
  | other
deriving DecidableEq, Repr

/-- Model of `pd.isna` on a cell. -/
def Cell.isNA : Cell → Bool
  | Cell.empty => true
  | _ => false

/-- Model of Python `str(...)` on a non-null cell (`str` of an `int`
prints the integer; the placeholder for `other` never feeds a claim). -/
def Cell.toStr : Cell → String
  | Cell.empty => "nan"
  | Cell.num n => toString n
  | Cell.str s => s
  | Cell.other => "other"

/-- The `SKIP_SHEET_PATTERNS` test of src/universal_etl.py:109-114 and
src/app/universal_etl.py:109-114 applied to an already lower-cased,
stripped name: `^_`, `helper`, `mapping`, `^info$`, each via
`re.search`. -/
def skipSheetMatch (n : String) : Bool :=
  startsWithL ['_'] n.toList || strContains n "helper" ||
    strContains n "mapping" || n == "info"

/-- The `plan` pattern group of `SHEET_TYPE_PATTERNS`
(src/universal_etl.py:53-61). -/
def planNameMatch (n : String) : Bool :=
  n == "plan" || searchL (atWsStar "plan" "(") n.toList ||
    strContains n "allocation" || strContains n "forecast" ||
    strContains n "staffing" || searchL atYearThenPlan n.toList ||
    searchL atPlanThenYear n.toList

/-- The `rate_card` pattern group (src/universal_etl.py:62-67). -/
def rateCardNameMatch (n : String) : Bool :=
  searchL (atWsStar "rate" "card") n.toList || strContains n "ratecard" ||
    searchDotStar n "custom" "rate" || searchDotStar n "deptapps" "rate"

/-- The `actuals` pattern group (src/universal_etl.py:68-73). -/
def actualsNameMatch (n : String) : Bool :=
  strContains n "actual" || strContains n "timesheet" ||
    searchDotStar n "hours" "log" || strContains n "pivot"

/-- The `costs` pattern group (src/universal_etl.py:74-81). -/
def costsNameMatch (n : String) : Bool :=
  n == "cost" || n == "costs" || strContains n "expense" ||
    searchDotStar n "vendor" "cost" || n == "extra" || n == "extras"

/-- The `investment_log` pattern group (src/universal_etl.py:82-86). -/
def investmentLogNameMatch (n : String) : Bool :=
  searchDotStar n "invest" "log" ||
    searchL (atWsPlus "investment" "log") n.toList ||
    strContains n "overrun"

/-- The `external_estimate` pattern group (src/universal_etl.py:87-92). -/
def externalEstimateNameMatch (n : String) : Bool :=
  searchDotStar n "ext" "estimate" || searchDotStar n "client" "estimate" ||
    searchDotStar n "external" "summary" || startsExtSpace n

/-- The `media` pattern group (src/universal_etl.py:93-97). -/
def mediaNameMatch (n : String) : Bool :=
  n == "media" || searchDotStar n "media" "plan" ||
    searchDotStar n "media" "buy"

/-- The `info` pattern group (src/universal_etl.py:98-102). -/
def infoNameMatch (n : String) : Bool :=
  n == "info" || searchDotStar n "change" "log" || strContains n "version"

/-- The `mapping` pattern group (src/universal_etl.py:103-106). -/
def mappingNameMatch (n : String) : Bool :=
  startsWithL "_mapping".toList n.toList ||
    startsWithL "_custom".toList n.toList || strContains n "helper"

/-- The `SHEET_TYPE_PATTERNS` table of src/universal_etl.py:52-106, in
source (insertion) order; each entry pairs a type tag with the
disjunction of that type's `re.search` pattern tests over the
lower-cased, stripped name. -/
def sheetTypeRules : List (String × (String → Bool)) :=
  [ ("plan", planNameMatch),
    ("rate_card", rateCardNameMatch),
    ("actuals", actualsNameMatch),
    ("costs", costsNameMatch),
    ("investment_log", investmentLogNameMatch),
    ("external_estimate", externalEstimateNameMatch),
    ("media", mediaNameMatch),
    ("info", infoNameMatch),
    ("mapping", mappingNameMatch) ]

/-- Embedding of `detect_sheet_type` (src/universal_etl.py:213-232, and
identically src/app/universal_etl.py:213-232): lower-case and strip the
name, test the skip patterns first, then each type's pattern set in
table order returning the first match, then the `20\d{2}` year default
to `plan`, otherwise `unknown`. -/
def detect_sheet_type (sheetName : String) : String :=
  let n := pyStrip (asciiLower sheetName)
  if skipSheetMatch n then "skip"
  else
    match sheetTypeRules.find? (fun r => r.2 n) with
    | some r => r.1
    | none => if has20dd n then "plan" else "unknown"

/-- Embedding of the rate-card type inference inside
`process_rate_card_sheet` (src/universal_etl.py:484-492 and
src/app/universal_etl.py:540-548): `custom` when the lower-cased sheet
name contains `custom`, else `external` when it contains `ext`, else
`standard`. -/
def rate_card_type_of (sheetName : String) : String :=
  if strContains (asciiLower sheetName) "custom" then "custom"
  else if strContains (asciiLower sheetName) "ext" then "external"
  else "standard"

/-- The `HEADER_KEYWORDS` table of src/universal_etl.py:202-210 (identical
in src/app/universal_etl.py); `HEADER_KEYWORDS.get(sheet_type,
HEADER_KEYWORDS['plan'])` defaults every unknown type to the plan
list. -/
def headerKeywords : String → List String
  | "plan" => ["category", "market", "department", "role", "total hours", "total fees"]
  | "rate_card" => ["market", "craft", "role", "title", "cost rate", "bill rate", "level"]
  | "actuals" => ["market", "employee", "role", "total hours"]
  | "costs" => ["item", "category", "date", "vendor", "total cost"]
  | "investment_log" =>
      ["date identified", "investment summary", "investment amount", "resource impact"]
  | "external_estimate" => ["department", "role", "total hours", "total fee", "dedication"]
  | "media" => ["channel", "platform", "budget", "spend", "impressions", "vendor"]
  | _ => ["category", "market", "department", "role", "total hours", "total fees"]

/-- String cell test. -/
def Cell.isStr : Cell → Bool
  | Cell.str _ => true
  | _ => false

/-- Full match of the regex `^(0[1-9]|[1-9][0-9])$` (week-number header). -/
def isWeekNumHdr (s : String) : Bool :=
  match s.toList with
  | [c1, c2] =>
      (c1 = '0' && '1' ≤ c2 && c2 ≤ '9') || ('1' ≤ c1 && c1 ≤ '9' && isAsciiDigit c2)
  | _ => false

/-- Full match of the regex `^(0[1-9]|[1-9][0-9])-hours$`. -/
def isWeekHoursHdr (s : String) : Bool :=
  match s.toList with
  | c1 :: c2 :: rest =>
      ((c1 = '0' && '1' ≤ c2 && c2 ≤ '9') || ('1' ≤ c1 && c1 ≤ '9' && isAsciiDigit c2)) &&
        rest == "-hours".toList
  | _ => false

/-- Per-cell contribution to a header-row score
(src/universal_etl.py:254-268): only string cells contribute, +5 for
each keyword contained in the lower-cased stripped text, +1 for a
week-number token and +1 for an `NN-hours` token. -/
def cellHdrScore (kws : List String) : Cell → Nat
  | Cell.str s =>
      let v := pyStrip (asciiLower s)
      5 * (kws.filter (fun kw => strContains v kw)).length +
        (if isWeekNumHdr v then 1 else 0) + (if isWeekHoursHdr v then 1 else 0)
  | _ => 0

/-- Number of non-null cells in a row (`row.dropna()` length). -/
def nonNullCount (row : List Cell) : Nat :=
  (row.filter (fun c => !c.isNA)).length

/-- Number of string cells in a row. -/
def stringCellCount (row : List Cell) : Nat :=
  (row.filter Cell.isStr).length

/-- Score of a candidate header row (src/universal_etl.py:251-272): sum
of per-cell scores plus the string-count bonus when at least 4 string
cells are present. -/
def rowScore (kws : List String) (row : List Cell) : Nat :=
  (row.map (cellHdrScore kws)).sum +
    (if 4 ≤ stringCellCount row then stringCellCount row else 0)

/-- The scanning loop of `find_header_row`
(src/universal_etl.py:244-276): walk the rows with remaining fuel and a
running best `(row, score)`, skipping rows with fewer than 3 non-null
cells and updating the best only on a strictly larger score. -/
def findHeaderRowAux (kws : List String) :
    List (List Cell) → Nat → Nat → Int → Nat → Int
  | [], _, _, best, _ => best
  | _ :: _, 0, _, best, _ => best
  | row :: rest, fuel + 1, idx, best, bestScore =>
    if nonNullCount row < 3 then
      findHeaderRowAux kws rest fuel (idx + 1) best bestScore
    else
      let s := rowScore kws row
      if bestScore < s then findHeaderRowAux kws rest fuel (idx + 1) (Int.ofNat idx) s
      else findHeaderRowAux kws rest fuel (idx + 1) best bestScore

/-- The default scan depth (`max_rows = 60`) of `find_header_row`; every
caller in the sources uses the default. -/
def maxScanRows : Nat := 60

/-- Embedding of `find_header_row` (src/universal_etl.py:235-278 and
identically src/app/universal_etl.py:235-278). -/
def find_header_row (grid : List (List Cell)) (sheetType : String) : Int :=
  findHeaderRowAux (headerKeywords sheetType) grid maxScanRows 0 (-1) 0

/-- The candidate rows the scan considers: index and score of every row
within fuel that has at least 3 non-null cells. -/
def headerCands (kws : List String) : List (List Cell) → Nat → Nat → List (Nat × Nat)
  | [], _, _ => []
  | _ :: _, 0, _ => []
  | row :: rest, fuel + 1, idx =>
    if nonNullCount row < 3 then headerCands kws rest fuel (idx + 1)
    else (idx, rowScore kws row) :: headerCands kws rest fuel (idx + 1)

/-- Folding the strictly-greater update rule over a candidate list. -/
def pickBest : List (Nat × Nat) → Int × Nat → Int × Nat
  | [], acc => acc
  | (i, s) :: rest, (b, bs) =>
      pickBest rest (if bs < s then (Int.ofNat i, s) else (b, bs))

/-- The `COLUMN_MAPPINGS` table of src/universal_etl.py:120-195
(identical in src/app/universal_etl.py), in source (insertion) order;
direct dictionary lookups and the partial-containment fallback both
iterate it in this order. -/
def COLUMN_MAPPINGS : List (String × String) :=
  [ ("market", "market"), ("market_region", "market"), ("dept market", "market"),
    ("department", "department"), ("global department", "department"),
    ("dept department", "department"), ("craft", "department"),
    ("role", "role"), ("job role", "role"), ("title", "title"),
    ("dept title", "title"), ("level name", "level"), ("level", "level"),
    ("cost rate", "cost_rate"), ("bill rate", "bill_rate"),
    ("bill rate, usd", "bill_rate"), ("final bill rate", "final_bill_rate"),
    ("effective bill rate", "effective_bill_rate"),
    ("rate card bill rate", "rate_card_bill_rate"),
    ("final cost rate", "final_cost_rate"), ("primary rate", "primary_rate"),
    ("standard bill rate", "standard_bill_rate"),
    ("bill rate override", "bill_rate_override"),
    ("cost rate override", "cost_rate_override"),
    ("total fees override", "total_fees_override"),
    ("total cost override", "total_cost_override"),
    ("total hours override", "total_hours_override"),
    ("total fees", "total_fees"), ("effective fees", "effective_fees"),
    ("total cost", "total_cost"), ("total hours", "total_hours"),
    ("gross margin", "gross_margin"), ("margin %", "margin_pct"),
    ("discount %", "discount_pct"),
    ("employee name", "employee_name"), ("employee", "employee_name"),
    ("name", "employee_name"), ("employee currrent title", "employee_title"),
    ("business team", "business_team"), ("ic type", "ic_type"),
    ("category", "category"), ("notes", "notes"), ("notes/description", "notes"),
    ("standard role name, \nif non-default", "standard_role_override"),
    ("alt. custom rate card", "alt_rate_card"),
    ("deptapps budget", "deptapps_budget"),
    ("item", "item"), ("vendor", "vendor"),
    ("estimate/actual", "estimate_actual"), ("type", "cost_type"),
    ("% dedication", "dedication_pct"),
    ("est. # of total hours", "est_total_hours"),
    ("est. # of weekly hours", "est_weekly_hours"),
    ("total fee", "total_fee"), ("weekly fee", "weekly_fee") ]

/-- Collapse runs of a repeated space character. -/
def dedupSpaces : List Char → List Char
  | [] => []
  | [c] => [c]
  | c1 :: c2 :: rest =>
      if c1 = ' ' && c2 = ' ' then dedupSpaces (c2 :: rest)
      else c1 :: dedupSpaces (c2 :: rest)

/-- Model of `re.sub(r'\s+', ' ', s)`: every whitespace run becomes a
single space. -/
def collapseWs (s : String) : String :=
  (dedupSpaces (s.toList.map (fun c => if pyIsSpace c then ' ' else c))).asString

/-- Word-character test modelling the regex class `\w` (ASCII). -/
def isWordChar (c : Char) : Bool := isAsciiAlpha c || isAsciiDigit c || c = '_'

/-- Model of `re.sub(r'[^\w]', '_', s).strip('_')`: non-word characters
become underscores, then underscores are stripped from both ends. -/
def slugify (s : String) : String :=
  (stripEnds (fun c => c = '_')
    (s.toList.map (fun c => if isWordChar c then c else '_'))).asString

/-- Embedding of `normalize_column_name`
(src/universal_etl.py:281-299 and identically
src/app/universal_etl.py:281-299): null labels become the empty string;
otherwise the label is lower-cased, stripped and whitespace-collapsed,
looked up exactly in `COLUMN_MAPPINGS`, then by first containment match
in table order, and finally slugified. -/
def normalize_column_name (c : Cell) : String :=
  if c.isNA then ""
  else
    let colLower := collapseWs (pyStrip (asciiLower c.toStr))
    match COLUMN_MAPPINGS.find? (fun p => p.1 == colLower) with
    | some p => p.2
    | none =>
      match COLUMN_MAPPINGS.find? (fun p => strContains colLower p.1) with
      | some p => p.2
      | none => slugify colLower

/-- Lookup in the occurrence-counter store of `make_columns_unique`. -/
def lookupSeen : List (String × Nat) → String → Option Nat
  | [], _ => none
  | (k0, v0) :: rest, k => if k0 = k then some v0 else lookupSeen rest k

/-- Overwrite-or-append update of the occurrence-counter store. -/
def setSeen : List (String × Nat) → String → Nat → List (String × Nat)
  | [], k, v => [(k, v)]
  | (k0, v0) :: rest, k, v =>
      if k0 = k then (k0, v) :: rest else (k0, v0) :: setSeen rest k v

/-- The loop of `make_columns_unique` (src/app/universal_etl.py:495-510):
null entries become the literal `unnamed`, a first occurrence keeps its
name and records counter 0, and each repeat bumps the counter and emits
`name_counter`. -/
def make_columns_unique_aux (seen : List (String × Nat)) : List Cell → List String
  | [] => []
  | col :: rest =>
      let colStr := if col.isNA then "unnamed" else col.toStr
      match lookupSeen seen colStr with
      | some n =>
          (colStr ++ "_" ++ toString (n + 1)) ::
            make_columns_unique_aux (setSeen seen colStr (n + 1)) rest
      | none => colStr :: make_columns_unique_aux (setSeen seen colStr 0) rest

/-- Embedding of `make_columns_unique` (src/app/universal_etl.py:495-510). -/
def make_columns_unique (cols : List Cell) : List String :=
  make_columns_unique_aux [] cols

/-- The composition used by every sheet processor in
src/app/universal_etl.py (e.g. lines 376-379): normalize each raw label,
then pass the resulting strings through `make_columns_unique`. -/
def normalize_then_dedup (labels : List Cell) : List String :=
  make_columns_unique ((labels.map normalize_column_name).map Cell.str)

/-- Suffix assignment by encounter order, written directly from the
amended claim's words: the k-th repeat of a normalized key `r` (counting
earlier occurrences) becomes `r_k`, and a first occurrence stays `r`.
Used only to characterize `make_columns_unique` on string keys. -/
def dedupSpecAssign (seenRev : List String) : List String → List String
  | [] => []
  | k :: rest =>
      let c := seenRev.count k
      (if c = 0 then k else k ++ "_" ++ toString c) :: dedupSpecAssign (k :: seenRev) rest

/-- The `VALID_MARKET_CODES` whitelist of src/app/universal_etl.py:739-742. -/
def VALID_MARKET_CODES : List String :=
  [ "DPUS", "CXUS", "EXUS", "MTUS", "AMER", "EMEA", "APAC", "LATAM",
    "NA", "EU", "UK", "US", "CA", "AU", "GLOBAL", "CORP" ]

/-- The `INVALID_MARKET_VALUES` blocklist of src/app/universal_etl.py:745-749. -/
def INVALID_MARKET_VALUES : List String :=
  [ "total hours", "total fees", "total cost", "gross margin",
    "category", "department", "role", "notes", "employee",
    "bill rate", "cost rate", "hours", "fees", "costs" ]

/-- Model of Python `str.isalpha` (ASCII): non-empty and all letters. -/
def pyIsAlphaStr (s : String) : Bool :=
  !s.toList.isEmpty && s.toList.all isAsciiAlpha

/-- Model of Python `str.isupper` (ASCII): at least one letter and no
lower-case letter. -/
def pyIsUpperStr (s : String) : Bool :=
  s.toList.any isAsciiAlpha && s.toList.all (fun c => !('a' ≤ c && c ≤ 'z'))

/-- Embedding of `is_valid_market_value`
(src/app/universal_etl.py:751-765): null is rejected; a whitelisted code
(after strip and upper-case) is accepted; a blocklisted lower-cased
label is rejected; otherwise any uppercased string of at most 6
characters that is alphabetic and upper-case is accepted.  Note the
final test is applied to the already upper-cased `val_str`. -/
def is_valid_market_value (val : Cell) : Bool :=
  if val.isNA then false
  else
    let valStr := asciiUpper (pyStrip val.toStr)
    let valLower := asciiLower (pyStrip val.toStr)
    if VALID_MARKET_CODES.contains valStr then true
    else if INVALID_MARKET_VALUES.contains valLower then false
    else valStr.length ≤ 6 && pyIsAlphaStr valStr && pyIsUpperStr valStr

/-- The `known_labels` dictionary of src/app/universal_etl.py:769-813 in
source (insertion) order: label pattern, category, canonical key. -/
def known_labels : List (String × String × String) :=
  [ ("client", "project_info", "client"),
    ("client (info)", "project_info", "client"),
    ("project title", "project_info", "project_title"),
    ("project title (info)", "project_info", "project_title"),
    ("project number", "project_info", "project_number"),
    ("project number (info)", "project_info", "project_number"),
    ("start date", "project_info", "start_date"),
    ("start date (required)", "project_info", "start_date"),
    ("end date", "project_info", "end_date"),
    ("market", "configuration", "market"),
    ("market (required)", "configuration", "market"),
    ("company", "configuration", "company"),
    ("company (required)", "configuration", "company"),
    ("rate card", "configuration", "rate_card"),
    ("rate card (required)", "configuration", "rate_card"),
    ("billing type", "configuration", "billing_type"),
    ("billing type (info)", "configuration", "billing_type"),
    ("hour mode", "configuration", "hour_mode"),
    ("total project fee", "financial_summary", "total_project_fee"),
    ("estimated gross margin", "financial_summary", "estimated_gross_margin"),
    ("target gm%", "financial_summary", "target_gm_pct"),
    ("target gm% / fee", "financial_summary", "target_gm_pct"),
    ("billable labor fees", "financial_summary", "billable_labor_fees"),
    ("additional billable fees", "financial_summary", "additional_billable_fees"),
    ("passthrough", "financial_summary", "passthrough"),
    ("labor costs", "financial_summary", "labor_costs"),
    ("investment costs", "financial_summary", "investment_costs"),
    ("total hours", "financial_summary", "total_hours"),
    ("total cost", "financial_summary", "total_cost"),
    ("gross margin", "financial_summary", "gross_margin"),
    ("fixed fee", "configuration", "fixed_fee"),
    ("fixed fee (optional)", "configuration", "fixed_fee"),
    ("fixed % discount", "configuration", "fixed_discount_pct"),
    ("blended rate", "configuration", "blended_rate") ]

/-- The `value_patterns` list of src/app/universal_etl.py:819-822. -/
def value_patterns : List String :=
  [ "weekly (fixed 40)", "weekly (fixed 35)", "monthly (fixed 150)",
    "fixed fee", "t&m", "retainer", "hybrid" ]

/-- One entry of the `raw_metadata` provenance list.  The heterogeneous
Python dictionaries are flattened: promoted label/value pairs carry
`category`/`key`, the `'type': 'number'` marker and the column-3
secondary-scan marker are recorded in `kind`. -/
structure RawEntry where
  row : Nat
  label : String
  value : Cell
  category : Option String := none
  key : Option String := none
  kind : Option String := none
deriving DecidableEq, Repr

/-- The `MetadataRecord` accumulated by `extract_sheet_metadata`
(src/app/universal_etl.py:731-736): three category maps plus the raw
provenance list. -/
structure SheetMetadata where
  project_info : List (String × Cell)
  financial_summary : List (String × Cell)
  configuration : List (String × Cell)
  raw_metadata : List RawEntry
deriving DecidableEq, Repr

/-- The empty metadata record. -/
def emptyMetadata : SheetMetadata := ⟨[], [], [], []⟩

/-- Python dict assignment `m[k] = v`: overwrite in place or append. -/
def setKeyCell : List (String × Cell) → String → Cell → List (String × Cell)
  | [], k, v => [(k, v)]
  | (k0, v0) :: rest, k, v =>
      if k0 = k then (k0, v) :: rest else (k0, v0) :: setKeyCell rest k v

/-- Python dict lookup `m.get(k)`. -/
def getKeyCell : List (String × Cell) → String → Option Cell
  | [], _ => none
  | (k0, v0) :: rest, k => if k0 = k then some v0 else getKeyCell rest k

/-- Assignment `metadata[category][key] = v` for the three category maps. -/
def SheetMetadata.setIn (md : SheetMetadata) (cat key : String) (v : Cell) :
    SheetMetadata :=
  if cat = "project_info" then
    { md with project_info := setKeyCell md.project_info key v }
  else if cat = "financial_summary" then
    { md with financial_summary := setKeyCell md.financial_summary key v }
  else if cat = "configuration" then
    { md with configuration := setKeyCell md.configuration key v }
  else md

/-- Append to the raw-metadata provenance list. -/
def SheetMetadata.addRaw (md : SheetMetadata) (e : RawEntry) : SheetMetadata :=
  { md with raw_metadata := md.raw_metadata ++ [e] }

/-- The known-label loop of src/app/universal_etl.py:839-859: for the
first label matching exactly or by containment (with the length bound),
read the adjacent cell; a missing or null adjacent cell ends the loop
with no promotion; an adjacent value failing the market validation
continues with the next label; otherwise the value is promoted into its
category map and recorded in the provenance list, ending the loop. -/
def scanKnownLabels :
    List (String × String × String) → Nat → String → String → Option Cell →
      SheetMetadata → SheetMetadata
  | [], _, _, _, _, md => md
  | (pat, cat, key) :: rest, rowIdx, origLabel, valLower, nextVal, md =>
    if valLower = pat || (strContains valLower pat && valLower.length < 50) then
      match nextVal with
      | some nv =>
          if key = "market" && !is_valid_market_value nv then
            scanKnownLabels rest rowIdx origLabel valLower nextVal md
          else
            (md.setIn cat key nv).addRaw
              ⟨rowIdx + 1, origLabel, nv, some cat, some key, none⟩
      | none => md
    else scanKnownLabels rest rowIdx origLabel valLower nextVal md

/-- The value-pattern loop of src/app/universal_etl.py:861-874: the
first contained pattern classifies the cell itself as a configuration
value (hour mode or billing type) and records it, ending the loop. -/
def scanValuePatterns :
    List String → Nat → String → String → SheetMetadata → SheetMetadata
  | [], _, _, _, md => md
  | p :: rest, rowIdx, origVal, valLower, md =>
    if strContains valLower p then
      let md1 :=
        if strContains valLower "weekly" || strContains valLower "monthly" then
          md.setIn "configuration" "hour_mode" (Cell.str origVal)
        else if valLower = "fixed fee" || valLower = "t&m" ||
            valLower = "retainer" || valLower = "hybrid" then
          md.setIn "configuration" "billing_type" (Cell.str origVal)
        else md
      md1.addRaw ⟨rowIdx + 1, "detected_value", Cell.str origVal, none, none, none⟩
    else scanValuePatterns rest rowIdx origVal valLower md

/-- The standalone market-code check of src/app/universal_etl.py:876-886:
a string of length at most 10 whose stripped upper-case form is a
whitelisted code is recorded, and promoted to the configuration market
only when no market is recorded yet. -/
def metadataMarketCodeStep (rowIdx : Nat) (s : String) (md1 : SheetMetadata) :
    SheetMetadata :=
  if s.length ≤ 10 then
    let valUpper := asciiUpper (pyStrip s)
    if VALID_MARKET_CODES.contains valUpper then
      let md2a :=
        if (getKeyCell md1.configuration "market").isNone then
          md1.setIn "configuration" "market" (Cell.str valUpper)
        else md1
      md2a.addRaw ⟨rowIdx + 1, "market_code", Cell.str valUpper, none, none, none⟩
    else md1
  else md1

/-- The first-column numeric capture of src/app/universal_etl.py:888-899:
a string in column 0 followed by a number is recorded in the provenance
list. -/
def metadataNumberCaptureStep (rowIdx colIdx : Nat) (row : List Cell) (s : String)
    (md2 : SheetMetadata) : SheetMetadata :=
  if colIdx = 0 && colIdx + 1 < row.length then
    match row.getD (colIdx + 1) Cell.empty with
    | Cell.num n => md2.addRaw ⟨rowIdx + 1, s, Cell.num n, none, none, some "number"⟩
    | _ => md2
  else md2

/-- Processing of one cell of the primary metadata scan
(src/app/universal_etl.py:828-899): skip nulls; for string cells run the
known-label loop, the value-pattern loop, the standalone market-code
check and the first-column numeric capture in sequence (each of the
latter blocks is guarded by the same string test in the source, so
non-string cells are untouched by all of them). -/
def metadataCellVal (rowIdx colIdx : Nat) (row : List Cell) (val : Cell)
    (md : SheetMetadata) : SheetMetadata :=
  if val.isNA then md
  else
    match val with
    | Cell.str s =>
        let valLower := pyStrip (asciiLower s)
        let nextVal :=
          if colIdx + 1 < row.length then
            let nv := row.getD (colIdx + 1) Cell.empty
            if nv.isNA then none else some nv
          else none
        metadataNumberCaptureStep rowIdx colIdx row s
          (metadataMarketCodeStep rowIdx s
            (scanValuePatterns value_patterns rowIdx s valLower
              (scanKnownLabels known_labels rowIdx s valLower nextVal md)))
    | _ => md

/-- The per-cell step applied to the cell at the scanned position. -/
def metadataCellStep (rowIdx colIdx : Nat) (row : List Cell) (md : SheetMetadata) :
    SheetMetadata :=
  metadataCellVal rowIdx colIdx row (row.getD colIdx Cell.empty) md

/-- One row of the primary metadata scan: the first 30 columns in order. -/
def metadataRowScan (rowIdx : Nat) (row : List Cell) (md : SheetMetadata) :
    SheetMetadata :=
  (List.range (min row.length 30)).foldl
    (fun acc colIdx => metadataCellStep rowIdx colIdx row acc) md

/-- The primary metadata scan of src/app/universal_etl.py:824-899: the
rows strictly above the header, capped at 50. -/
def metadataPrimaryScan (grid : List (List Cell)) (headerRow : Nat) : SheetMetadata :=
  (List.range (min headerRow 50)).foldl
    (fun acc idx => metadataRowScan idx (grid.getD idx []) acc) emptyMetadata

/-- One row of the secondary column-3/4 scan of
src/app/universal_etl.py:901-930: a string label in column 3 paired with
a number in column 4 is cascaded into the financial summary and always
recorded in the provenance list. -/
def metadataSecondaryRowStep (rowIdx : Nat) (row : List Cell) (md : SheetMetadata) :
    SheetMetadata :=
  if 4 < row.length then
    match row.getD 3 Cell.empty, row.getD 4 Cell.empty with
    | Cell.str s, Cell.num n =>
        let ll := pyStrip (asciiLower s)
        let md1 :=
          if strContains ll "billable" && strContains ll "fee" then
            md.setIn "financial_summary" "billable_fees" (Cell.num n)
          else if strContains ll "passthrough" then
            md.setIn "financial_summary" "passthrough" (Cell.num n)
          else if strContains ll "investment" then
            md.setIn "financial_summary" "investment_costs" (Cell.num n)
          else if strContains ll "total hours" then
            md.setIn "financial_summary" "total_hours" (Cell.num n)
          else if strContains ll "total cost" then
            md.setIn "financial_summary" "total_cost" (Cell.num n)
          else if strContains ll "labor cost" then
            md.setIn "financial_summary" "labor_costs" (Cell.num n)
          else md
        md1.addRaw ⟨rowIdx + 1, s, Cell.num n, none, none, some "col3"⟩
    | _, _ => md
  else md

/-- Embedding of `extract_sheet_metadata`
(src/app/universal_etl.py:726-932): the primary label scan followed by
the secondary column-3/4 scan, both over the rows above the header. -/
def extract_sheet_metadata (grid : List (List Cell)) (headerRow : Nat) :
    SheetMetadata :=
  (List.range (min headerRow 50)).foldl
    (fun acc idx => metadataSecondaryRowStep idx (grid.getD idx []) acc)
    (metadataPrimaryScan grid headerRow)

/-- The `dimension_cols` list of src/app/universal_etl.py:386-391. -/
def dimensionCols : List String :=
  [ "category", "market", "department", "role", "employee_name",
    "notes", "business_team", "ic_type",
    "final_bill_rate", "effective_bill_rate", "cost_rate", "final_cost_rate",
    "total_fees", "total_cost", "total_hours", "margin_pct", "discount_pct" ]

/-- Test for a suffixed duplicate column: `col` is `dim` followed by an
underscore and a non-empty digit string
(src/app/universal_etl.py:399-402). -/
def isNatSuffixOf (dim col : String) : Bool :=
  startsWithL (dim ++ "_").toList col.toList &&
    (let tail := col.toList.drop (dim.toList.length + 1)
     !tail.isEmpty && tail.all isAsciiDigit)

/-- The dimension-column selection loop of
src/app/universal_etl.py:393-403: each dimension contributes itself when
present, otherwise its first digit-suffixed variant. -/
def existingDimsOf (cols : List String) : List String :=
  dimensionCols.flatMap (fun dim =>
    if cols.contains dim then [dim]
    else
      match cols.find? (fun col => isNatSuffixOf dim col) with
      | some col => [col]
      | none => [])

/-- Lookup in an association list built by Python `dict(zip(keys, vals))`:
a later binding of the same key overwrites an earlier one. -/
def lookupLast {α : Type} (pairs : List (String × α)) (k : String) : Option α :=
  (pairs.reverse.find? (fun p => p.1 == k)).map (fun p => p.2)

/-- Position of a column label (first occurrence, as in pandas label
indexing). -/
def colIndexOf (cols : List String) (c : String) : Option Nat :=
  cols.findIdx? (fun x => x == c)

/-- Value of a row under a column label; a missing label or short row
reads as null. -/
def valueAt (cols : List String) (row : List Cell) (c : String) : Cell :=
  match colIndexOf cols c with
  | some j => row.getD j Cell.empty
  | none => Cell.empty

/-- Full match of the week-token regex `^(0?[1-9]|[1-8][0-9]|90)$`. -/
def isWeekToken : List Char → Bool
  | [c] => '1' ≤ c && c ≤ '9'
  | [c1, c2] =>
      (c1 = '0' && '1' ≤ c2 && c2 ≤ '9') ||
      ('1' ≤ c1 && c1 ≤ '8' && isAsciiDigit c2) ||
      (c1 = '9' && c2 = '0')
  | _ => false

/-- Numeric value of a digit string. -/
def digitsToNat (l : List Char) : Nat :=
  l.foldl (fun acc c => acc * 10 + (c.toNat - '0'.toNat)) 0

/-- Numeric value of a matched week token
(`int(original_str.lstrip('0') or '0')`: leading zeros do not change the
value). -/
def weekTokenValue (l : List Char) : Int := Int.ofNat (digitsToNat l)

/-- The week-column detection loop of src/app/universal_etl.py:414-438:
for each current column, look up its original header cell; an integer
original in `[1, 90]` is a week column; otherwise a string form fully
matching the week-token regex is one. -/
def weekColInDataOf (uniqueCols : List String) (colOriginal : String → Option Cell) :
    List (String × Int) :=
  uniqueCols.filterMap (fun c =>
    match colOriginal c with
    | none => none
    | some orig =>
      let intCase : Option (String × Int) :=
        match orig with
        | Cell.num n => if 1 ≤ n && n ≤ 90 then some (c, n) else none
        | _ => none
      match intCase with
      | some r => some r
      | none =>
          let origStr := if orig.isNA then "" else pyStrip orig.toStr
          if isWeekToken origStr.toList then
            let w := weekTokenValue origStr.toList
            if 1 ≤ w && w ≤ 90 then some (c, w) else none
          else none)

/-- One long-format allocation row produced by the melt
(the `AllocationRecord` of the specification). -/
structure AllocRecord where
  dims : List (String × Cell)
  week_number : Int
  hours : Cell
  source_sheet : String
  project_id : String
deriving DecidableEq, Repr

/-- The `allocations` value a plan sheet produces: either melted
long-format records or the dimension-only degraded fallback rows (each
fallback row carries its selected dimension values plus the
`source_sheet` and `project_id` columns). -/
inductive PlanAllocations where
  | melted (recs : List AllocRecord)
  | dimOnly (rows : List (List (String × Cell)))
deriving DecidableEq, Repr

/-- The dictionary returned by `process_plan_sheet`. -/
structure PlanResult where
  allocations : PlanAllocations
  metadata : SheetMetadata
  row_count : Nat
deriving DecidableEq, Repr

/-- The unique normalized columns of the detected header row. -/
def planUniqueCols (grid : List (List Cell)) (headerRow : Nat) : List String :=
  normalize_then_dedup (grid.getD headerRow [])

/-- The `col_original_map` of src/app/universal_etl.py:383: zip of the
unique columns with the raw header cells, later bindings overwriting. -/
def planColOriginal (grid : List (List Cell)) (headerRow : Nat) :
    String → Option Cell :=
  fun c => lookupLast ((planUniqueCols grid headerRow).zip (grid.getD headerRow [])) c

/-- The data rows below the header after the key-column filter of
src/app/universal_etl.py:405-409: when any of market, department or role
exists, keep only rows where at least one of the existing keys is
non-null. -/
def planFilteredRows (grid : List (List Cell)) (headerRow : Nat) : List (List Cell) :=
  let cols := planUniqueCols grid headerRow
  let rows := grid.drop (headerRow + 1)
  let existingKeys := ["market", "department", "role"].filter (fun k => cols.contains k)
  if existingKeys.isEmpty then rows
  else rows.filter (fun row => existingKeys.any (fun k => !(valueAt cols row k).isNA))

/-- The detected week columns of a plan sheet. -/
def planWeekCols (grid : List (List Cell)) (headerRow : Nat) : List (String × Int) :=
  weekColInDataOf (planUniqueCols grid headerRow) (planColOriginal grid headerRow)

/-- The source cells the melt visits, column-major: for each detected
week column in order, the cell of every surviving data row under that
column.  One entry per (data-row, week-column) pair. -/
def meltCells (grid : List (List Cell)) (headerRow : Nat) : List Cell :=
  ((planWeekCols grid headerRow).map (fun p => p.1)).flatMap (fun c =>
    (planFilteredRows grid headerRow).map (fun row =>
      valueAt (planUniqueCols grid headerRow) row c))

/-- The melt row filter of src/app/universal_etl.py:467: keep a cell
when it is non-null and not equal to zero (any string compares unequal
to zero). -/
def hoursQualifies (c : Cell) : Bool := !c.isNA && c != Cell.num 0

/-- Numeric reading of an hours cell (non-numeric cells count as 0 in
sums). -/
def hoursVal : Cell → Int
  | Cell.num n => n
  | _ => 0

/-- Total hours over emitted allocation records. -/
def sumHours (recs : List AllocRecord) : Int :=
  (recs.map (fun rec => hoursVal rec.hours)).sum

/-- Total hours over a list of source cells. -/
def sumCells (cs : List Cell) : Int := (cs.map hoursVal).sum

/-- Embedding of `process_plan_sheet` (src/app/universal_etl.py:358-492):
slice below the header, normalize and dedup columns, filter empty key
rows, extract metadata, detect week columns; with week columns present,
melt them column-major into long-format records keyed by the surviving
dimension columns, map the week numbers back, and drop null or zero
hours; otherwise fall back to dimension-only rows. -/
def process_plan_sheet (grid : List (List Cell)) (sheetName : String)
    (headerRow : Nat) (projectId : String) : PlanResult :=
  let cols := planUniqueCols grid headerRow
  let existingDims := existingDimsOf cols
  let dfData := planFilteredRows grid headerRow
  let sheetMetadata := extract_sheet_metadata grid headerRow
  let weekCols := planWeekCols grid headerRow
  if weekCols.isEmpty then
    let rows := dfData.map (fun row =>
      (existingDims.filter (fun c => cols.contains c)).map
        (fun d => (d, valueAt cols row d)) ++
        [("source_sheet", Cell.str sheetName), ("project_id", Cell.str projectId)])
    ⟨PlanAllocations.dimOnly rows, sheetMetadata, dfData.length⟩
  else
    let weekNames := weekCols.map (fun p => p.1)
    let idVars := existingDims.filter (fun c => cols.contains c && !weekNames.contains c)
    let recs := weekNames.flatMap (fun c =>
      dfData.map (fun row =>
        ({ dims := idVars.map (fun d => (d, valueAt cols row d)),
           week_number := (lookupLast weekCols c).getD 0,
           hours := valueAt cols row c,
           source_sheet := sheetName,
           project_id := projectId } : AllocRecord)))
    let filtered := recs.filter (fun rec => hoursQualifies rec.hours)
    ⟨PlanAllocations.melted filtered, sheetMetadata, filtered.length⟩

/-- A plan row as fed to `merge_and_calculate` of src/ingest.py after the
rename of line 275-281: the three merge keys and the allocated hours.
Keys are cells because pandas joins match `NaN` keys to `NaN` keys. -/
structure PlanRow where
  market_region : Cell
  department : Cell
  role_title : Cell
  hours_allocated : Int
deriving DecidableEq, Repr

/-- A rate-card row as selected on src/ingest.py:295: the three merge keys
and the two rates. -/
structure RateRow where
  market_region : Cell
  department : Cell
  role_title : Cell
  cost_rate : Int
  bill_rate : Int
deriving DecidableEq, Repr

/-- Key equality of the pandas merge `on=["market_region", "department",
"role_title"]` (src/ingest.py:294-298). -/
def keyMatch (r : RateRow) (p : PlanRow) : Bool :=
  decide (r.market_region = p.market_region ∧ r.department = p.department ∧
    r.role_title = p.role_title)

/-- The rate-card rows a plan row joins with. -/
def rateMatches (rc : List RateRow) (p : PlanRow) : List RateRow :=
  rc.filter (fun r => keyMatch r p)

/-- An output row of ingest's `merge_and_calculate`: the plan fields, the
(filled) rates and the two derived metrics. -/
structure MergedRow where
  market_region : Cell
  department : Cell
  role_title : Cell
  hours_allocated : Int
  cost_rate : Int
  bill_rate : Int
  forecasted_cost : Int
  forecasted_revenue : Int
deriving DecidableEq, Repr

/-- The plan-row part of a merged row. -/
def MergedRow.keyRow (m : MergedRow) : PlanRow :=
  ⟨m.market_region, m.department, m.role_title, m.hours_allocated⟩

/-- Embedding of `merge_and_calculate` (src/ingest.py:262-322): a left
join on the three keys — each plan row is paired with every matching
rate-card row, or kept once with missing rates when nothing matches —
then `fillna(0)` on both rates and
`forecasted_cost = hours_allocated * cost_rate`,
`forecasted_revenue = hours_allocated * bill_rate`. -/
def merge_and_calculate (plan : List PlanRow) (rc : List RateRow) :
    List MergedRow :=
  plan.flatMap (fun p =>
    match rateMatches rc p with
    | [] =>
        [⟨p.market_region, p.department, p.role_title, p.hours_allocated,
          0, 0, p.hours_allocated * 0, p.hours_allocated * 0⟩]
    | ms => ms.map (fun r =>
        ⟨p.market_region, p.department, p.role_title, p.hours_allocated,
          r.cost_rate, r.bill_rate,
          p.hours_allocated * r.cost_rate, p.hours_allocated * r.bill_rate⟩))

/-- A plan row as fed to `merge_and_calculate` of src/financial_etl.py:
the `MERGE_KEYS` columns and the melted hours. -/
structure FePlanRow where
  market_region : Cell
  department : Cell
  role : Cell
  hours : Int
deriving DecidableEq, Repr

/-- A rate-card row of src/financial_etl.py; `rate` is `none` when the
cell is non-numeric (`pd.to_numeric(..., errors='coerce')` turns it into
`NaN`). -/
structure FeRateRow where
  market_region : Cell
  department : Cell
  role : Cell
  rate : Option Int
deriving DecidableEq, Repr

/-- An output row of financial_etl's `merge_and_calculate`: `rate` and
`total_fees` are `none` where pandas leaves `NaN`, and `leftOnly` is the
`_merge == 'left_only'` indicator of the merge with `indicator=True`. -/
structure FeMergedRow where
  market_region : Cell
  department : Cell
  role : Cell
  hours : Int
  rate : Option Int
  leftOnly : Bool
  total_fees : Option Int
deriving DecidableEq, Repr

/-- Key equality of the pandas merge on
`MERGE_KEYS = ['market_region', 'department', 'role']`
(src/financial_etl.py:409-415). -/
def feKeyMatch (r : FeRateRow) (p : FePlanRow) : Bool :=
  decide (r.market_region = p.market_region ∧ r.department = p.department ∧
    r.role = p.role)

/-- Embedding of `merge_and_calculate` (src/financial_etl.py:359-455):
left join with `indicator=True` — an unmatched plan row is kept once,
flagged `left_only`, with `NaN` rate — then
`total_fees = hours * rate`, which stays `NaN` on a `NaN` rate. -/
def fe_merge_and_calculate (plan : List FePlanRow) (rc : List FeRateRow) :
    List FeMergedRow :=
  plan.flatMap (fun p =>
    match rc.filter (fun r => feKeyMatch r p) with
    | [] => [⟨p.market_region, p.department, p.role, p.hours, none, true, none⟩]
    | ms => ms.map (fun r =>
        ⟨p.market_region, p.department, p.role, p.hours, r.rate, false,
          r.rate.map (fun x => p.hours * x)⟩))

/-- The reported unmatched-row count
`unmatched = (df_merged['_merge'] == 'left_only').sum()`
(src/financial_etl.py:424). -/
def unmatchedCount (plan : List FePlanRow) (rc : List FeRateRow) : Nat :=
  ((fe_merge_and_calculate plan rc).filter (fun m => m.leftOnly)).length

/-- Result of `process_rate_card_sheet` (src/app/universal_etl.py:513-558):
the deduplicated columns, the surviving data rows, and the two constant
columns the processor adds (`rate_card_type`, `source_sheet`) kept as
fields since every row carries the same value. -/
structure RateCardResult where
  cols : List String
  rows : List (List Cell)
  rate_card_type : String
  source_sheet : String
  row_count : Nat
deriving DecidableEq, Repr

/-- Embedding of `process_rate_card_sheet`
(src/app/universal_etl.py:513-558, same shape in
src/universal_etl.py:460-530): slice below the header, normalize and
dedup the columns, drop rows with a null `market` (else `title`) cell,
and tag the rate-card type from the sheet name. -/
def process_rate_card_sheet (grid : List (List Cell)) (sheetName : String)
    (headerRow : Nat) : RateCardResult :=
  let cols := normalize_then_dedup (grid.getD headerRow [])
  let rows := grid.drop (headerRow + 1)
  let filtered :=
    if cols.contains "market" then
      rows.filter (fun r => !(valueAt cols r "market").isNA)
    else if cols.contains "title" then
      rows.filter (fun r => !(valueAt cols r "title").isNA)
    else rows
  ⟨cols, filtered, rate_card_type_of sheetName, sheetName, filtered.length⟩

/-- Shared result shape of the remaining sheet processors of
src/app/universal_etl.py (actuals, costs, investment log, external
estimate, media): columns, surviving rows, and the constant
`source_sheet` / `project_id` columns kept as fields. -/
structure TabularResult where
  cols : List String
  rows : List (List Cell)
  source_sheet : String
  project_id : String
  row_count : Nat
deriving DecidableEq, Repr

/-- `df.dropna(subset=existing_keys, how='all')` against a key list:
keep a row when at least one of the keys present among the columns is
non-null; with no key present, keep everything. -/
def dropAllNaSubset (cols keys : List String) (rows : List (List Cell)) :
    List (List Cell) :=
  let existingKeys := keys.filter (fun k => cols.contains k)
  if existingKeys.isEmpty then rows
  else rows.filter (fun row => existingKeys.any (fun k => !(valueAt cols row k).isNA))

/-- Embedding of `process_actuals_sheet` (src/app/universal_etl.py:561-593):
drop rows with a null `employee_name` (else `market`) cell. -/
def process_actuals_sheet (grid : List (List Cell)) (sheetName : String)
    (headerRow : Nat) (projectId : String) : TabularResult :=
  let cols := normalize_then_dedup (grid.getD headerRow [])
  let rows := grid.drop (headerRow + 1)
  let filtered :=
    if cols.contains "employee_name" then
      rows.filter (fun r => !(valueAt cols r "employee_name").isNA)
    else if cols.contains "market" then
      rows.filter (fun r => !(valueAt cols r "market").isNA)
    else rows
  ⟨cols, filtered, sheetName, projectId, filtered.length⟩

/-- Embedding of `process_costs_sheet` (src/app/universal_etl.py:596-625):
drop rows with a null `item` cell. -/
def process_costs_sheet (grid : List (List Cell)) (sheetName : String)
    (headerRow : Nat) (projectId : String) : TabularResult :=
  let cols := normalize_then_dedup (grid.getD headerRow [])
  let rows := grid.drop (headerRow + 1)
  let filtered :=
    if cols.contains "item" then
      rows.filter (fun r => !(valueAt cols r "item").isNA)
    else rows
  ⟨cols, filtered, sheetName, projectId, filtered.length⟩

/-- Embedding of `process_investment_log_sheet`
(src/app/universal_etl.py:628-657). -/
def process_investment_log_sheet (grid : List (List Cell)) (sheetName : String)
    (headerRow : Nat) (projectId : String) : TabularResult :=
  let cols := normalize_then_dedup (grid.getD headerRow [])
  let rows := grid.drop (headerRow + 1)
  let filtered :=
    dropAllNaSubset cols ["investment_summary", "investment_amount", "date_identified"] rows
  ⟨cols, filtered, sheetName, projectId, filtered.length⟩

/-- Embedding of `process_external_estimate_sheet`
(src/app/universal_etl.py:660-688). -/
def process_external_estimate_sheet (grid : List (List Cell)) (sheetName : String)
    (headerRow : Nat) (projectId : String) : TabularResult :=
  let cols := normalize_then_dedup (grid.getD headerRow [])
  let rows := grid.drop (headerRow + 1)
  let filtered :=
    dropAllNaSubset cols ["department", "role", "total_fee", "est_total_hours"] rows
  ⟨cols, filtered, sheetName, projectId, filtered.length⟩

/-- Embedding of `process_media_sheet` (src/app/universal_etl.py:691-717):
`dropna(how='all')` keeps the rows with some non-null value. -/
def process_media_sheet (grid : List (List Cell)) (sheetName : String)
    (headerRow : Nat) (projectId : String) : TabularResult :=
  let cols := normalize_then_dedup (grid.getD headerRow [])
  let rows := grid.drop (headerRow + 1)
  let filtered := rows.filter (fun row => cols.any (fun c => !(valueAt cols row c).isNA))
  ⟨cols, filtered, sheetName, projectId, filtered.length⟩

/-- One entry of `results['processing_log']`: `row_count` is present on a
success entry, `message` on an error entry. -/
structure LogEntry where
  sheet : String
  type : String
  status : String
  row_count : Option Nat
  message : Option String
deriving DecidableEq, Repr

/-- Embedding of `generate_project_id` (src/universal_etl.py:330-333 and
identically src/app/universal_etl.py): the source hashes the pipe-joined
key with sha256 and keeps 16 hex digits; the hash is modelled by the key
itself, which keeps exactly the property the claims rely on — the id is
one deterministic value per (client, title, file, sheet) quadruple. -/
def generate_project_id (clientName projectTitle sourceFile sourceSheet : String) :
    String :=
  clientName ++ "|" ++ projectTitle ++ "|" ++ sourceFile ++ "|" ++ sourceSheet

/-- The project record appended in the plan branch of `process_workbook`
(src/universal_etl.py:1195-1205, src/app/universal_etl.py:1465-1498);
the fields derived from the extracted metadata, the constructor-time
timestamp and the JSON serialization are carried by keeping the
extracted `SheetMetadata` itself. -/
structure ProjectRecord where
  project_id : String
  source_file : String
  source_sheet : String
  sheet_metadata : SheetMetadata
deriving DecidableEq, Repr

/-- The accumulating `results` dictionary of `process_workbook`:
per-sheet batches for the list-valued keys, plus the processing log.
(The investment-log, external-estimate and media processors are invoked
for their row counts but their frames are not stored, as in the
source.) -/
structure EtlResults where
  allocations : List PlanAllocations
  rate_cards : List RateCardResult
  actuals : List TabularResult
  costs : List TabularResult
  projects : List ProjectRecord
  processing_log : List LogEntry
deriving DecidableEq, Repr

/-- The empty `results` dictionary process_workbook starts from. -/
def emptyResults : EtlResults := ⟨[], [], [], [], [], []⟩

/-- `len(result['allocations'])`: the number of rows of an allocations
batch. -/
def PlanAllocations.size : PlanAllocations → Nat
  | PlanAllocations.melted recs => recs.length
  | PlanAllocations.dimOnly rows => rows.length

/-- The `project_id` column values of an allocations batch (for the
degraded dimension-only frame, the value of the appended `project_id`
column of each row). -/
def PlanAllocations.projectIds : PlanAllocations → List String
  | PlanAllocations.melted recs => recs.map (fun rec => rec.project_id)
  | PlanAllocations.dimOnly rows =>
      rows.filterMap (fun row =>
        match lookupLast row "project_id" with
        | some (Cell.str s) => some s
        | _ => none)

/-- Append one processing-log entry. -/
def EtlResults.logAppend (acc : EtlResults) (e : LogEntry) : EtlResults :=
  ⟨acc.allocations, acc.rate_cards, acc.actuals, acc.costs, acc.projects,
    acc.processing_log ++ [e]⟩

/-- Append one allocations batch. -/
def EtlResults.addAllocations (acc : EtlResults) (b : PlanAllocations) : EtlResults :=
  ⟨acc.allocations ++ [b], acc.rate_cards, acc.actuals, acc.costs, acc.projects,
    acc.processing_log⟩

/-- Append one rate-card batch. -/
def EtlResults.addRateCard (acc : EtlResults) (b : RateCardResult) : EtlResults :=
  ⟨acc.allocations, acc.rate_cards ++ [b], acc.actuals, acc.costs, acc.projects,
    acc.processing_log⟩

/-- Append one actuals batch. -/
def EtlResults.addActuals (acc : EtlResults) (b : TabularResult) : EtlResults :=
  ⟨acc.allocations, acc.rate_cards, acc.actuals ++ [b], acc.costs, acc.projects,
    acc.processing_log⟩

/-- Append one costs batch. -/
def EtlResults.addCosts (acc : EtlResults) (b : TabularResult) : EtlResults :=
  ⟨acc.allocations, acc.rate_cards, acc.actuals, acc.costs ++ [b], acc.projects,
    acc.processing_log⟩

/-- Append one project record. -/
def EtlResults.addProject (acc : EtlResults) (p : ProjectRecord) : EtlResults :=
  ⟨acc.allocations, acc.rate_cards, acc.actuals, acc.costs, acc.projects ++ [p],
    acc.processing_log⟩

/-- One iteration of the sheet loop of `process_workbook`
(src/universal_etl.py:1147-1255 and identically structured
src/app/universal_etl.py:1416-1555): skip and unknown sheet types and
empty sheets are passed over with no log entry; a failed header scan
logs an error entry; otherwise the type's processor runs, non-empty
batches are stored (a plan sheet always also appends its project
record), and a success entry with the processor's row count is logged
(`info`, `mapping` and any unhandled type count as 0 rows). -/
def processSheetStep (fileName clientName projectTitle : String)
    (acc : EtlResults) (sheet : String × List (List Cell)) : EtlResults :=
  let sheetName := sheet.1
  let grid := sheet.2
  let sheetType := detect_sheet_type sheetName
  if sheetType == "skip" || sheetType == "unknown" then acc
  else if grid.length == 0 then acc
  else if find_header_row grid sheetType < 0 then
    acc.logAppend ⟨sheetName, sheetType, "error", none, some "Could not find header row"⟩
  else
    let headerRow := (find_header_row grid sheetType).toNat
    let projectId := generate_project_id clientName projectTitle fileName sheetName
    if sheetType == "plan" then
      let result := process_plan_sheet grid sheetName headerRow projectId
      let acc1 := if 0 < result.allocations.size then acc.addAllocations result.allocations else acc
      ((acc1.addProject ⟨projectId, fileName, sheetName, result.metadata⟩).logAppend
        ⟨sheetName, sheetType, "success", some result.row_count, none⟩)
    else if sheetType == "rate_card" then
      let result := process_rate_card_sheet grid sheetName headerRow
      let acc1 := if 0 < result.rows.length then acc.addRateCard result else acc
      acc1.logAppend ⟨sheetName, sheetType, "success", some result.row_count, none⟩
    else if sheetType == "actuals" then
      let result := process_actuals_sheet grid sheetName headerRow projectId
      let acc1 := if 0 < result.rows.length then acc.addActuals result else acc
      acc1.logAppend ⟨sheetName, sheetType, "success", some result.row_count, none⟩
    else if sheetType == "costs" then
      let result := process_costs_sheet grid sheetName headerRow projectId
      let acc1 := if 0 < result.rows.length then acc.addCosts result else acc
      acc1.logAppend ⟨sheetName, sheetType, "success", some result.row_count, none⟩
    else if sheetType == "investment_log" then
      acc.logAppend ⟨sheetName, sheetType, "success",
        some (process_investment_log_sheet grid sheetName headerRow projectId).row_count, none⟩
    else if sheetType == "external_estimate" then
      acc.logAppend ⟨sheetName, sheetType, "success",
        some (process_external_estimate_sheet grid sheetName headerRow projectId).row_count, none⟩
    else if sheetType == "media" then
      acc.logAppend ⟨sheetName, sheetType, "success",
        some (process_media_sheet grid sheetName headerRow projectId).row_count, none⟩
    else
      acc.logAppend ⟨sheetName, sheetType, "success", some 0, none⟩

/-- Embedding of `process_workbook` (src/universal_etl.py:1100-1290,
identically structured src/app/universal_etl.py:1370-1580): fold the
sheet loop over the workbook's (name, grid) pairs. -/
def process_workbook (sheets : List (String × List (List Cell)))
    (fileName clientName projectTitle : String) : EtlResults :=
  sheets.foldl (processSheetStep fileName clientName projectTitle) emptyResults

/-- The `project_id` value of every row of the aggregated allocations
output (`allocations_combined`, the concatenation of the stored
batches). -/
def allocationProjectIds (r : EtlResults) : List String :=
  r.allocations.flatMap PlanAllocations.projectIds

/-- The `project_id` values of the batch's project records. -/
def batchProjectIds (r : EtlResults) : List String :=
  r.projects.map ProjectRecord.project_id

/-- The row count a processed sheet reports on its success log entry,
written from the amended claim's per-type dispatch. -/
def sheetRowCount (fileName clientName projectTitle sheetName : String)
    (grid : List (List Cell)) (t : String) : Nat :=
  let headerRow := (find_header_row grid t).toNat
  let projectId := generate_project_id clientName projectTitle fileName sheetName
  if t == "plan" then (process_plan_sheet grid sheetName headerRow projectId).row_count
  else if t == "rate_card" then (process_rate_card_sheet grid sheetName headerRow).row_count
  else if t == "actuals" then (process_actuals_sheet grid sheetName headerRow projectId).row_count
  else if t == "costs" then (process_costs_sheet grid sheetName headerRow projectId).row_count
  else if t == "investment_log" then
    (process_investment_log_sheet grid sheetName headerRow projectId).row_count
  else if t == "external_estimate" then
    (process_external_estimate_sheet grid sheetName headerRow projectId).row_count
  else if t == "media" then (process_media_sheet grid sheetName headerRow projectId).row_count
  else 0

/-- Spec-side: the processing-log entries one sheet contributes, written
from the amended claim's words — nothing for a skipped, unknown-type or
empty sheet; one error entry `Could not find header row` when the
header scan fails; otherwise exactly one success entry carrying the
processor's row count. -/
def sheetLogSpec (fileName clientName projectTitle : String)
    (sheet : String × List (List Cell)) : List LogEntry :=
  let sheetName := sheet.1
  let grid := sheet.2
  let t := detect_sheet_type sheetName
  if t == "skip" || t == "unknown" then []
  else if grid.length == 0 then []
  else if find_header_row grid t < 0 then
    [⟨sheetName, t, "error", none, some "Could not find header row"⟩]
  else
    [⟨sheetName, t, "success",
      some (sheetRowCount fileName clientName projectTitle sheetName grid t), none⟩]

/-- Spec-side: `detect_sheet_type` re-stated from the amended claim's
words — skip on a `_` prefix, a `helper` or `mapping` substring, or the
exact name `info`; otherwise the first matching pattern group in the
fixed priority order plan, rate_card, actuals, costs, investment_log,
external_estimate, media, info, mapping; otherwise `plan` exactly when
the name contains a `20\d\d` token, else `unknown`. -/
def detectSheetTypeSpec (sheetName : String) : String :=
  let n := pyStrip (asciiLower sheetName)
  if startsWithL ['_'] n.toList || strContains n "helper" ||
      strContains n "mapping" || n == "info" then "skip"
  else if planNameMatch n then "plan"
  else if rateCardNameMatch n then "rate_card"
  else if actualsNameMatch n then "actuals"
  else if costsNameMatch n then "costs"
  else if investmentLogNameMatch n then "investment_log"
  else if externalEstimateNameMatch n then "external_estimate"
  else if mediaNameMatch n then "media"
  else if infoNameMatch n then "info"
  else if mappingNameMatch n then "mapping"
  else if has20dd n then "plan"
  else "unknown"

/-- Everything ever stored under the configuration market key passes the
market validation. -/
def marketInv (md : SheetMetadata) : Prop :=
  ∀ v, getKeyCell md.configuration "market" = some v → is_valid_market_value v = true

/-- The "2025 Plan" sheet of the claim: five filler rows, the header at
index 5 with columns Category, Market, Department, Role, 01, 02, and one
data row. -/
def c1Grid : List (List Cell) :=
  List.replicate 5 [] ++
  [[Cell.str "Category", Cell.str "Market", Cell.str "Department", Cell.str "Role",
    Cell.str "01", Cell.str "02"],
   [Cell.str "Staffing", Cell.str "AMER", Cell.str "Eng", Cell.str "Dev",
    Cell.num 10, Cell.num 0]]

/-- The single allocation record the "2025 Plan" sheet melts to. -/
def c1Recs : List AllocRecord :=
  [⟨[("category", Cell.str "Staffing"), ("market", Cell.str "AMER"),
     ("department", Cell.str "Eng"), ("role", Cell.str "Dev")],
    1, Cell.num 10, "2025 Plan", "P"⟩]

/-- The one-row plan side of the claim's merge example. -/
def c2Plan : List PlanRow :=
  [⟨Cell.str "AMER", Cell.str "Eng", Cell.str "Dev", 10⟩]

/-- The one-row rate card of the claim's merge example. -/
def c2Rate : List RateRow :=
  [⟨Cell.str "AMER", Cell.str "Eng", Cell.str "Dev", 50, 120⟩]

/-- A two-row plan side, one row matched and one unmatched. -/
def c2FePlan : List FePlanRow :=
  [⟨Cell.str "AMER", Cell.str "Eng", Cell.str "Dev", 10⟩,
   ⟨Cell.str "EMEA", Cell.str "Ops", Cell.str "QA", 5⟩]

/-- A rate card matching only the first of the two plan rows. -/
def c2FeRate : List FeRateRow :=
  [⟨Cell.str "AMER", Cell.str "Eng", Cell.str "Dev", some 50⟩]

/-- A workbook whose only sheet is skipped by the classifier. -/
def c6SkipBook : List (String × List (List Cell)) :=
  [("_hidden", [[Cell.str "a", Cell.str "b", Cell.str "c"]])]

/-- A workbook whose only sheet is a plan sheet with no detectable
header row. -/
def c6ErrBook : List (String × List (List Cell)) :=
  [("2025 Plan", [[Cell.str "a"]])]

/-- A metadata zone pairing a Market label with the value TOTAL, above a
header row at index 1. -/
def c7Grid : List (List Cell) :=
  [[Cell.str "Market", Cell.str "TOTAL"],
   [Cell.str "Category", Cell.str "Market", Cell.str "Department", Cell.str "Role"]]

/-- A grid whose header row sits at scan index 59, the last row the
60-row scan reaches. -/
def c8Grid : List (List Cell) :=
  List.replicate 59 [] ++
  [[Cell.str "Market", Cell.str "Department", Cell.str "Role"]]

/-- A one-row grid with an immediately detectable header. -/
def c8wGrid : List (List Cell) :=
  [[Cell.str "Market", Cell.str "Department", Cell.str "Role"]]

/-- A one-sheet workbook with a plan sheet producing one allocation. -/
def c9Sheets : List (String × List (List Cell)) :=
  [("2025 Plan",
    [[Cell.str "Market", Cell.str "Department", Cell.str "Role", Cell.str "01"],
     [Cell.str "AMER", Cell.str "Eng", Cell.str "Dev", Cell.num 2]])]

lemma findHeaderRowAux_eq (kws : List String) :
    ∀ (rows : List (List Cell)) (fuel idx : Nat) (b : Int) (bs : Nat),
      findHeaderRowAux kws rows fuel idx b bs =
        (pickBest (headerCands kws rows fuel idx) (b, bs)).1
  | [], fuel, idx, b, bs => by
      cases fuel <;> simp [findHeaderRowAux, headerCands, pickBest]
  | row :: rest, 0, idx, b, bs => by
      simp [findHeaderRowAux, headerCands, pickBest]
  | row :: rest, fuel + 1, idx, b, bs => by
      by_cases h : nonNullCount row < 3
      · simp only [findHeaderRowAux, headerCands, h, if_pos]
        exact findHeaderRowAux_eq kws rest fuel (idx + 1) b bs
      · simp only [findHeaderRowAux, headerCands, h, if_neg, not_false_iff, pickBest]
        by_cases hs : bs < rowScore kws row
        · simp only [hs, if_pos]
          exact findHeaderRowAux_eq kws rest fuel (idx + 1) (Int.ofNat idx) (rowScore kws row)
        · simp only [hs, if_neg, not_false_iff]
          exact findHeaderRowAux_eq kws rest fuel (idx + 1) b bs

lemma headerCands_mem (kws : List String) :
    ∀ (rows : List (List Cell)) (fuel idx i s : Nat),
      ((i, s) ∈ headerCands kws rows fuel idx) ↔
        ∃ m, m < min fuel rows.length ∧ i = idx + m ∧
          3 ≤ nonNullCount (rows.getD m []) ∧ s = rowScore kws (rows.getD m [])
  | [], fuel, idx, i, s => by
      cases fuel <;> simp [headerCands]
  | row :: rest, 0, idx, i, s => by
      simp [headerCands]
  | row :: rest, fuel + 1, idx, i, s => by
      by_cases h : nonNullCount row < 3
      · rw [headerCands, if_pos h, headerCands_mem kws rest fuel (idx + 1) i s]
        constructor
        · rintro ⟨m, hm, hi, hnn, hs⟩
          exact ⟨m + 1, by simp only [List.length_cons]; omega, by omega,
            by simpa using hnn, by simpa using hs⟩
        · rintro ⟨m, hm, hi, hnn, hs⟩
          match m with
          | 0 => exact absurd (by simpa using hnn) (by omega)
          | m + 1 =>
            exact ⟨m, by simp only [List.length_cons] at hm; omega, by omega,
              by simpa using hnn, by simpa using hs⟩
      · rw [headerCands, if_neg h]
        simp only [List.mem_cons, Prod.mk.injEq,
          headerCands_mem kws rest fuel (idx + 1) i s]
        constructor
        · rintro (⟨hi, hs⟩ | ⟨m, hm, hi, hnn, hs⟩)
          · exact ⟨0, by simp only [List.length_cons]; omega, by omega,
              by simp only [List.getD_cons_zero]; omega, by simpa using hs⟩
          · exact ⟨m + 1, by simp only [List.length_cons]; omega, by omega,
              by simpa using hnn, by simpa using hs⟩
        · rintro ⟨m, hm, hi, hnn, hs⟩
          match m with
          | 0 => exact Or.inl ⟨by omega, by simpa using hs⟩
          | m + 1 =>
            exact Or.inr ⟨m, by simp only [List.length_cons] at hm; omega, by omega,
              by simpa using hnn, by simpa using hs⟩

lemma headerCands_ge (kws : List String) :
    ∀ (rows : List (List Cell)) (fuel idx : Nat) (p : Nat × Nat),
      p ∈ headerCands kws rows fuel idx → idx ≤ p.1 := by
  intro rows fuel idx p hp
  rcases p with ⟨i, s⟩
  rcases (headerCands_mem kws rows fuel idx i s).1 hp with ⟨m, _, hi, _, _⟩
  omega

lemma headerCands_pairwise (kws : List String) :
    ∀ (rows : List (List Cell)) (fuel idx : Nat),
      List.Pairwise (fun p q => p.1 < q.1) (headerCands kws rows fuel idx)
  | [], fuel, idx => by cases fuel <;> simp [headerCands]
  | row :: rest, 0, idx => by simp [headerCands]
  | row :: rest, fuel + 1, idx => by
      by_cases h : nonNullCount row < 3
      · rw [headerCands, if_pos h]
        exact headerCands_pairwise kws rest fuel (idx + 1)
      · rw [headerCands, if_neg h]
        refine List.Pairwise.cons ?_ (headerCands_pairwise kws rest fuel (idx + 1))
        intro q hq
        have := headerCands_ge kws rest fuel (idx + 1) q hq
        simpa using by omega

lemma pickBest_stay :
    ∀ (l : List (Nat × Nat)) (b : Int) (bs : Nat),
      (∀ p ∈ l, p.2 ≤ bs) → pickBest l (b, bs) = (b, bs)
  | [], b, bs, _ => rfl
  | (i, s) :: t, b, bs, h => by
      have hs : s ≤ bs := h (i, s) (List.mem_cons_self _ _)
      rw [pickBest, if_neg (by omega)]
      exact pickBest_stay t b bs (fun p hp => h p (List.mem_cons_of_mem _ hp))

lemma pickBest_spec :
    ∀ (l : List (Nat × Nat)) (b : Int) (bs : Nat),
      List.Pairwise (fun p q => p.1 < q.1) l →
      (pickBest l (b, bs) = (b, bs) ∧ ∀ p ∈ l, p.2 ≤ bs) ∨
      (∃ i s, (i, s) ∈ l ∧ pickBest l (b, bs) = (Int.ofNat i, s) ∧ bs < s ∧
        (∀ p ∈ l, p.2 ≤ s) ∧ (∀ p ∈ l, p.1 < i → p.2 < s))
  | [], b, bs, _ => Or.inl ⟨rfl, by simp⟩
  | (i0, s0) :: t, b, bs, hp => by
      have hp1 : ∀ q ∈ t, i0 < q.1 := by
        intro q hq; exact (List.pairwise_cons.1 hp).1 q hq
      have hp2 : List.Pairwise (fun p q => p.1 < q.1) t := (List.pairwise_cons.1 hp).2
      by_cases hlt : bs < s0
      · rw [pickBest, if_pos hlt]
        rcases pickBest_spec t (Int.ofNat i0) s0 hp2 with ⟨heq, hall⟩ | ⟨i, s, hm, heq, hgt, hall, hsm⟩
        · refine Or.inr ⟨i0, s0, List.mem_cons_self _ _, heq, hlt, ?_, ?_⟩
          · intro p hp'
            rcases List.mem_cons.1 hp' with h | h
            · subst h; exact le_refl _
            · exact hall p h
          · intro p hp' hlt'
            rcases List.mem_cons.1 hp' with h | h
            · subst h; omega
            · exact absurd hlt' (by have := hp1 p h; omega)
        · refine Or.inr ⟨i, s, List.mem_cons_of_mem _ hm, heq, by omega, ?_, ?_⟩
          · intro p hp'
            rcases List.mem_cons.1 hp' with h | h
            · subst h; omega
            · exact hall p h
          · intro p hp' hlt'
            rcases List.mem_cons.1 hp' with h | h
            · subst h; omega
            · exact hsm p h hlt'
      · rw [pickBest, if_neg hlt]
        rcases pickBest_spec t b bs hp2 with ⟨heq, hall⟩ | ⟨i, s, hm, heq, hgt, hall, hsm⟩
        · refine Or.inl ⟨heq, ?_⟩
          intro p hp'
          rcases List.mem_cons.1 hp' with h | h
          · subst h; omega
          · exact hall p h
        · refine Or.inr ⟨i, s, List.mem_cons_of_mem _ hm, heq, hgt, ?_, ?_⟩
          · intro p hp'
            rcases List.mem_cons.1 hp' with h | h
            · subst h; omega
            · exact hall p h
          · intro p hp' hlt'
            rcases List.mem_cons.1 hp' with h | h
            · subst h; omega
            · exact hsm p h hlt'

lemma find_header_row_neg_iff (grid : List (List Cell)) (t : String) :
    find_header_row grid t = -1 ↔
      ∀ m, m < min maxScanRows grid.length →
        3 ≤ nonNullCount (grid.getD m []) →
        rowScore (headerKeywords t) (grid.getD m []) = 0 := by
  rw [find_header_row, findHeaderRowAux_eq]
  constructor
  · intro h m hm hnn
    rcases pickBest_spec (headerCands (headerKeywords t) grid maxScanRows 0) (-1) 0
        (headerCands_pairwise _ _ _ _) with ⟨heq, hall⟩ | ⟨i, s, _, heq, hgt, _, _⟩
    · have hmem : (m, rowScore (headerKeywords t) (grid.getD m [])) ∈
          headerCands (headerKeywords t) grid maxScanRows 0 := by
        exact (headerCands_mem _ _ _ _ _ _).2 ⟨m, hm, by omega, hnn, rfl⟩
      have := hall _ hmem
      omega
    · rw [heq] at h
      have h2 : (i : Int) = -1 := h
      omega
  · intro h
    have hall : ∀ p ∈ headerCands (headerKeywords t) grid maxScanRows 0, p.2 ≤ 0 := by
      rintro ⟨i, s⟩ hp
      rcases (headerCands_mem _ _ _ _ _ _).1 hp with ⟨m, hm, hi, hnn, hs⟩
      have := h m hm hnn
      omega
    rw [pickBest_stay _ _ _ hall]

lemma find_header_row_pos_spec (grid : List (List Cell)) (t : String) (r : Nat) :
    find_header_row grid t = Int.ofNat r →
      r < min maxScanRows grid.length ∧
      3 ≤ nonNullCount (grid.getD r []) ∧
      0 < rowScore (headerKeywords t) (grid.getD r []) ∧
      (∀ m, m < min maxScanRows grid.length →
        3 ≤ nonNullCount (grid.getD m []) →
        rowScore (headerKeywords t) (grid.getD m []) ≤
          rowScore (headerKeywords t) (grid.getD r [])) ∧
      (∀ m, m < r → 3 ≤ nonNullCount (grid.getD m []) →
        rowScore (headerKeywords t) (grid.getD m []) <
          rowScore (headerKeywords t) (grid.getD r [])) := by
  intro h
  rw [find_header_row, findHeaderRowAux_eq] at h
  rcases pickBest_spec (headerCands (headerKeywords t) grid maxScanRows 0) (-1) 0
      (headerCands_pairwise _ _ _ _) with ⟨heq, _⟩ | ⟨i, s, hm, heq, hgt, hall, hsm⟩
  · rw [heq] at h
    have h2 : (-1 : Int) = (r : Int) := h
    exact absurd h2 (by omega)
  · rw [heq] at h
    have hir : i = r := by
      have h2 : (i : Int) = (r : Int) := h
      omega
    rcases (headerCands_mem _ _ _ _ _ _).1 hm with ⟨m, hmlt, him, hnn, hs⟩
    have hmr : r = m := by omega
    subst hmr
    refine ⟨hmlt, hnn, by omega, ?_, ?_⟩
    · intro m' hm' hnn'
      have hmem : (m', rowScore (headerKeywords t) (grid.getD m' [])) ∈
          headerCands (headerKeywords t) grid maxScanRows 0 :=
        (headerCands_mem _ _ _ _ _ _).2 ⟨m', hm', by omega, hnn', rfl⟩
      have := hall _ hmem
      omega
    · intro m' hm' hnn'
      have hmem : (m', rowScore (headerKeywords t) (grid.getD m' [])) ∈
          headerCands (headerKeywords t) grid maxScanRows 0 :=
        (headerCands_mem _ _ _ _ _ _).2 ⟨m', by omega, by omega, hnn', rfl⟩
      have hlt2 : (m', rowScore (headerKeywords t) (grid.getD m' [])).1 < i := by
        show m' < i
        omega
      have := hsm _ hmem hlt2
      omega

lemma lookupSeen_setSeen :
    ∀ (seen : List (String × Nat)) (k : String) (v : Nat) (k2 : String),
      lookupSeen (setSeen seen k v) k2 = if k2 = k then some v else lookupSeen seen k2
  | [], k, v, k2 => by
      rw [setSeen, lookupSeen, lookupSeen]
      by_cases h : k = k2
      · rw [if_pos h, if_pos h.symm]
      · rw [if_neg h, if_neg (fun hh => h hh.symm), lookupSeen]
  | (k0, v0) :: rest, k, v, k2 => by
      by_cases h0 : k0 = k
      · subst h0
        rw [setSeen, if_pos rfl, lookupSeen, lookupSeen]
        by_cases h : k0 = k2
        · rw [if_pos h, if_pos h.symm]
        · rw [if_neg h, if_neg (fun hh => h hh.symm), if_neg h]
      · rw [setSeen, if_neg h0, lookupSeen, lookupSeen]
        by_cases h : k0 = k2
        · have hk2 : ¬(k2 = k) := fun hh => h0 (h.trans hh)
          rw [if_pos h, if_neg hk2, if_pos h]
        · rw [if_neg h, if_neg h]
          exact lookupSeen_setSeen rest k v k2

lemma make_columns_unique_aux_cons_str (seen : List (String × Nat)) (k : String)
    (rest : List Cell) :
    make_columns_unique_aux seen (Cell.str k :: rest) =
      match lookupSeen seen k with
      | some n =>
          (k ++ "_" ++ toString (n + 1)) ::
            make_columns_unique_aux (setSeen seen k (n + 1)) rest
      | none => k :: make_columns_unique_aux (setSeen seen k 0) rest := rfl

lemma dedupSpecAssign_cons (seenRev : List String) (k : String) (rest : List String) :
    dedupSpecAssign seenRev (k :: rest) =
      (if seenRev.count k = 0 then k else k ++ "_" ++ toString (seenRev.count k)) ::
        dedupSpecAssign (k :: seenRev) rest := rfl

lemma make_columns_unique_aux_spec :
    ∀ (keys : List String) (seen : List (String × Nat)) (prior : List String),
      (∀ k, lookupSeen seen k =
        if prior.count k = 0 then none else some (prior.count k - 1)) →
      make_columns_unique_aux seen (keys.map Cell.str) = dedupSpecAssign prior keys
  | [], seen, prior, _ => rfl
  | k :: rest, seen, prior, hinv => by
      rw [List.map_cons, make_columns_unique_aux_cons_str, dedupSpecAssign_cons, hinv k]
      by_cases hc : prior.count k = 0
      · rw [if_pos hc, if_pos hc]
        show k :: make_columns_unique_aux (setSeen seen k 0) (List.map Cell.str rest) =
          k :: dedupSpecAssign (k :: prior) rest
        congr 1
        apply make_columns_unique_aux_spec rest (setSeen seen k 0) (k :: prior)
        intro k2
        rw [lookupSeen_setSeen]
        by_cases h2 : k2 = k
        · subst h2
          rw [if_pos rfl, List.count_cons_self]
          rw [if_neg (by omega)]
          congr 1
          omega
        · rw [if_neg h2, hinv k2, List.count_cons_of_ne h2]
      · rw [if_neg hc, if_neg hc]
        have harith : prior.count k - 1 + 1 = prior.count k := by omega
        show (k ++ "_" ++ toString (prior.count k - 1 + 1)) ::
            make_columns_unique_aux (setSeen seen k (prior.count k - 1 + 1))
              (List.map Cell.str rest) =
          (k ++ "_" ++ toString (prior.count k)) :: dedupSpecAssign (k :: prior) rest
        rw [harith]
        congr 1
        apply make_columns_unique_aux_spec rest (setSeen seen k (prior.count k))
          (k :: prior)
        intro k2
        rw [lookupSeen_setSeen]
        by_cases h2 : k2 = k
        · subst h2
          rw [if_pos rfl, List.count_cons_self, if_neg (by omega)]
          congr 1
        · rw [if_neg h2, hinv k2, List.count_cons_of_ne h2]

lemma normalize_then_dedup_spec (labels : List Cell) :
    normalize_then_dedup labels =
      dedupSpecAssign [] (labels.map normalize_column_name) := by
  rw [normalize_then_dedup, make_columns_unique]
  apply make_columns_unique_aux_spec
  intro k
  simp [lookupSeen, List.count_nil]

lemma nonNullCount_blank (row : List Cell) (h : ∀ c ∈ row, c = Cell.empty) :
    nonNullCount row = 0 := by
  rw [nonNullCount]
  have : row.filter (fun c => !c.isNA) = [] := by
    rw [List.filter_eq_nil_iff]
    intro c hc
    rw [h c hc]
    simp [Cell.isNA]
  rw [this]
  rfl

lemma headerCands_blanks (kws : List String) :
    ∀ (blanks rows : List (List Cell)) (fuel idx : Nat),
      (∀ row ∈ blanks, nonNullCount row < 3) → blanks.length ≤ fuel →
      headerCands kws (blanks ++ rows) fuel idx =
        headerCands kws rows (fuel - blanks.length) (idx + blanks.length)
  | [], rows, fuel, idx, _, _ => by simp
  | b :: bs, rows, fuel, idx, hb, hlen => by
      match fuel with
      | 0 => exact absurd hlen (by simp)
      | fuel + 1 =>
        have hb0 : nonNullCount b < 3 := hb b (List.mem_cons_self _ _)
        rw [List.cons_append, headerCands, if_pos hb0]
        rw [headerCands_blanks kws bs rows fuel (idx + 1)
          (fun r hr => hb r (List.mem_cons_of_mem _ hr)) (by simp at hlen; omega)]
        congr 1
        · simp only [List.length_cons]
          omega
        · simp only [List.length_cons]
          omega

lemma find_header_row_blank_shift (grid : List (List Cell)) (t : String) (r : Nat)
    (blanks : List (List Cell))
    (hblank : ∀ row ∈ blanks, ∀ c ∈ row, c = Cell.empty)
    (hfind : find_header_row grid t = Int.ofNat r)
    (hlt : r + blanks.length < maxScanRows) :
    find_header_row (blanks ++ grid) t = Int.ofNat (r + blanks.length) := by
  obtain ⟨hr_range, hnn, hpos, hmax, hfirst⟩ := find_header_row_pos_spec grid t r hfind
  have hb3 : ∀ row ∈ blanks, nonNullCount row < 3 := by
    intro row hrow
    rw [nonNullCount_blank row (hblank row hrow)]
    omega
  rw [find_header_row, findHeaderRowAux_eq]
  rw [headerCands_blanks (headerKeywords t) blanks grid maxScanRows 0 hb3 (by omega)]
  set k := blanks.length with hk
  have hmemr : (0 + k + r, rowScore (headerKeywords t) (grid.getD r [])) ∈
      headerCands (headerKeywords t) grid (maxScanRows - k) (0 + k) := by
    refine (headerCands_mem _ _ _ _ _ _).2 ⟨r, by omega, by omega, hnn, rfl⟩
  rcases pickBest_spec (headerCands (headerKeywords t) grid (maxScanRows - k) (0 + k))
      (-1) 0 (headerCands_pairwise _ _ _ _) with ⟨heq, hall⟩ | ⟨i, s, hm, heq, hgt, hall2, hsm⟩
  · have h2 : rowScore (headerKeywords t) (grid.getD r []) ≤ 0 := hall _ hmemr
    omega
  · rw [heq]
    rcases (headerCands_mem _ _ _ _ _ _).1 hm with ⟨m, hmlt, him, hnn2, hs⟩
    have hSle : rowScore (headerKeywords t) (grid.getD r []) ≤ s := hall2 _ hmemr
    have hsle : s ≤ rowScore (headerKeywords t) (grid.getD r []) := by
      have := hmax m (by omega) hnn2
      omega
    have hmr : m = r := by
      by_contra hne
      rcases Nat.lt_or_ge m r with hlt2 | hge
      · have := hfirst m hlt2 hnn2
        omega
      · have hgt2 : r < m := by omega
        have hlt3 : (0 + k + r, rowScore (headerKeywords t) (grid.getD r [])).1 < i := by
          show 0 + k + r < i
          omega
        have h3 : rowScore (headerKeywords t) (grid.getD r []) < s := hsm _ hmemr hlt3
        omega
    subst hmr
    show Int.ofNat i = Int.ofNat (m + k)
    congr 1
    omega

lemma filter_hours_map (l : List AllocRecord) :
    (l.filter (fun rec => hoursQualifies rec.hours)).map (fun rec => rec.hours) =
      (l.map (fun rec => rec.hours)).filter hoursQualifies := by
  induction l with
  | nil => rfl
  | cons a t ih =>
      by_cases h : hoursQualifies a.hours = true <;>
        simp [List.filter_cons, h, ih]

lemma process_plan_melted (grid : List (List Cell)) (sheetName : String)
    (headerRow : Nat) (projectId : String) (recs : List AllocRecord)
    (h : (process_plan_sheet grid sheetName headerRow projectId).allocations =
      PlanAllocations.melted recs) :
    recs.map (fun rec => rec.hours) = (meltCells grid headerRow).filter hoursQualifies := by
  by_cases hw : (planWeekCols grid headerRow).isEmpty = true
  · simp only [process_plan_sheet, hw, if_true, if_pos] at h
    exact absurd h (by simp)
  · simp only [process_plan_sheet, hw, Bool.false_eq_true, if_false,
      PlanAllocations.melted.injEq] at h
    subst h
    rw [filter_hours_map]
    congr 1
    rw [meltCells, List.map_flatMap]
    congr 1
    funext c
    rw [List.map_map]
    rfl

lemma getKeyCell_setKeyCell :
    ∀ (m : List (String × Cell)) (k : String) (v : Cell) (k2 : String),
      getKeyCell (setKeyCell m k v) k2 = if k2 = k then some v else getKeyCell m k2
  | [], k, v, k2 => by
      rw [setKeyCell, getKeyCell, getKeyCell]
      by_cases h : k = k2
      · rw [if_pos h, if_pos h.symm]
      · rw [if_neg h, if_neg (fun hh => h hh.symm), getKeyCell]
  | (k0, v0) :: rest, k, v, k2 => by
      by_cases h0 : k0 = k
      · subst h0
        rw [setKeyCell, if_pos rfl, getKeyCell, getKeyCell]
        by_cases h : k0 = k2
        · rw [if_pos h, if_pos h.symm]
        · rw [if_neg h, if_neg (fun hh => h hh.symm), if_neg h]
      · rw [setKeyCell, if_neg h0, getKeyCell, getKeyCell]
        by_cases h : k0 = k2
        · have hk2 : ¬(k2 = k) := fun hh => h0 (h.trans hh)
          rw [if_pos h, if_neg hk2, if_pos h]
        · rw [if_neg h, if_neg h]
          exact getKeyCell_setKeyCell rest k v k2

lemma marketInv_empty : marketInv emptyMetadata := by
  intro v h
  exact absurd h (by rw [emptyMetadata]; exact fun hh => Option.noConfusion hh)

lemma marketInv_addRaw (md : SheetMetadata) (e : RawEntry) (h : marketInv md) :
    marketInv (md.addRaw e) := h

lemma getMarket_setIn (md : SheetMetadata) (cat key : String) (v : Cell) :
    getKeyCell (md.setIn cat key v).configuration "market" =
      if cat = "configuration" then
        (if "market" = key then some v else getKeyCell md.configuration "market")
      else getKeyCell md.configuration "market" := by
  rw [SheetMetadata.setIn]
  by_cases h1 : cat = "project_info"
  · rw [if_pos h1, if_neg (by rw [h1]; decide)]
  · rw [if_neg h1]
    by_cases h2 : cat = "financial_summary"
    · rw [if_pos h2, if_neg (by rw [h2]; decide)]
    · rw [if_neg h2]
      by_cases h3 : cat = "configuration"
      · rw [if_pos h3, if_pos h3]
        exact getKeyCell_setKeyCell _ _ _ _
      · rw [if_neg h3, if_neg h3]

lemma marketInv_setIn (md : SheetMetadata) (cat key : String) (v : Cell)
    (hmd : marketInv md)
    (hv : key = "market" → cat = "configuration" → is_valid_market_value v = true) :
    marketInv (md.setIn cat key v) := by
  intro w hw
  rw [getMarket_setIn] at hw
  by_cases h3 : cat = "configuration"
  · rw [if_pos h3] at hw
    by_cases hk : "market" = key
    · rw [if_pos hk] at hw
      cases hw
      exact hv hk.symm h3
    · rw [if_neg hk] at hw
      exact hmd w hw
  · rw [if_neg h3] at hw
    exact hmd w hw

lemma scanKnownLabels_cons_none (pat cat key : String)
    (rest : List (String × String × String)) (rowIdx : Nat)
    (origLabel valLower : String) (md : SheetMetadata) :
    scanKnownLabels ((pat, cat, key) :: rest) rowIdx origLabel valLower none md =
      if valLower = pat || (strContains valLower pat && valLower.length < 50) then md
      else scanKnownLabels rest rowIdx origLabel valLower none md := rfl

lemma scanKnownLabels_cons_some (pat cat key : String)
    (rest : List (String × String × String)) (rowIdx : Nat)
    (origLabel valLower : String) (nv : Cell) (md : SheetMetadata) :
    scanKnownLabels ((pat, cat, key) :: rest) rowIdx origLabel valLower (some nv) md =
      if valLower = pat || (strContains valLower pat && valLower.length < 50) then
        (if key = "market" && !is_valid_market_value nv then
          scanKnownLabels rest rowIdx origLabel valLower (some nv) md
        else
          (md.setIn cat key nv).addRaw
            ⟨rowIdx + 1, origLabel, nv, some cat, some key, none⟩)
      else scanKnownLabels rest rowIdx origLabel valLower (some nv) md := rfl

lemma marketInv_scanKnownLabels :
    ∀ (labels : List (String × String × String)) (rowIdx : Nat)
      (origLabel valLower : String) (nextVal : Option Cell) (md : SheetMetadata),
      marketInv md →
      marketInv (scanKnownLabels labels rowIdx origLabel valLower nextVal md)
  | [], _, _, _, _, md, hmd => hmd
  | (pat, cat, key) :: rest, rowIdx, origLabel, valLower, nextVal, md, hmd => by
      rcases nextVal with _ | nv
      · rw [scanKnownLabels_cons_none]
        split
        · exact hmd
        · exact marketInv_scanKnownLabels rest rowIdx origLabel valLower none md hmd
      · rw [scanKnownLabels_cons_some]
        split
        · split
          · exact marketInv_scanKnownLabels rest rowIdx origLabel valLower (some nv) md hmd
          · next hguard =>
              refine marketInv_addRaw _ _ (marketInv_setIn md cat key nv hmd ?_)
              intro hk _
              cases hvalid : is_valid_market_value nv
              · exact absurd (by simp [hk, hvalid]) hguard
              · rfl
        · exact marketInv_scanKnownLabels rest rowIdx origLabel valLower (some nv) md hmd

lemma marketInv_scanValuePatterns :
    ∀ (pats : List String) (rowIdx : Nat) (origVal valLower : String)
      (md : SheetMetadata), marketInv md →
      marketInv (scanValuePatterns pats rowIdx origVal valLower md)
  | [], _, _, _, md, hmd => hmd
  | p :: rest, rowIdx, origVal, valLower, md, hmd => by
      rw [scanValuePatterns]
      by_cases hmatch : strContains valLower p = true
      · rw [if_pos hmatch]
        refine marketInv_addRaw _ _ ?_
        by_cases h1 : (strContains valLower "weekly" || strContains valLower "monthly") = true
        · rw [if_pos h1]
          exact marketInv_setIn md _ _ _ hmd (fun hk _ => absurd hk (by decide))
        · rw [if_neg h1]
          by_cases h2 : (valLower = "fixed fee" || valLower = "t&m" ||
              valLower = "retainer" || valLower = "hybrid")
          · rw [if_pos h2]
            exact marketInv_setIn md _ _ _ hmd (fun hk _ => absurd hk (by decide))
          · rw [if_neg h2]
            exact hmd
      · rw [if_neg hmatch]
        exact marketInv_scanValuePatterns rest rowIdx origVal valLower md hmd

lemma valid_code_is_valid (u : String) (h : u ∈ VALID_MARKET_CODES) :
    is_valid_market_value (Cell.str u) = true := by
  simp only [VALID_MARKET_CODES, List.mem_cons, List.not_mem_nil, or_false] at h
  rcases h with h | h | h | h | h | h | h | h | h | h | h | h | h | h | h | h <;>
    subst h <;> decide

lemma marketInv_marketCodeStep (rowIdx : Nat) (s : String) (md : SheetMetadata)
    (hmd : marketInv md) : marketInv (metadataMarketCodeStep rowIdx s md) := by
  rw [metadataMarketCodeStep]
  by_cases hlen : s.length ≤ 10
  · rw [if_pos hlen]
    by_cases hcode : VALID_MARKET_CODES.contains (asciiUpper (pyStrip s)) = true
    · rw [if_pos hcode]
      refine marketInv_addRaw _ _ ?_
      by_cases hnone : (getKeyCell md.configuration "market").isNone = true
      · rw [if_pos hnone]
        refine marketInv_setIn md _ _ _ hmd ?_
        intro _ _
        exact valid_code_is_valid _ (by simpa using hcode)
      · rw [if_neg hnone]
        exact hmd
    · rw [if_neg hcode]
      exact hmd
  · rw [if_neg hlen]
    exact hmd

lemma marketInv_numberCaptureStep (rowIdx colIdx : Nat) (row : List Cell) (s : String)
    (md : SheetMetadata) (hmd : marketInv md) :
    marketInv (metadataNumberCaptureStep rowIdx colIdx row s md) := by
  rw [metadataNumberCaptureStep]
  by_cases hcond : (colIdx = 0 && colIdx + 1 < row.length) = true
  · rw [if_pos hcond]
    match row.getD (colIdx + 1) Cell.empty with
    | Cell.num n => exact marketInv_addRaw _ _ hmd
    | Cell.empty => exact hmd
    | Cell.str s2 => exact hmd
    | Cell.other => exact hmd
  · rw [if_neg hcond]
    exact hmd

lemma marketInv_cellVal (rowIdx colIdx : Nat) (row : List Cell) (val : Cell)
    (md : SheetMetadata) (hmd : marketInv md) :
    marketInv (metadataCellVal rowIdx colIdx row val md) := by
  rcases val with _ | n | s | _
  · simp only [metadataCellVal, Cell.isNA, if_true]
    exact hmd
  · simp only [metadataCellVal, Cell.isNA, Bool.false_eq_true, if_false]
    exact hmd
  · simp only [metadataCellVal, Cell.isNA, Bool.false_eq_true, if_false]
    exact marketInv_numberCaptureStep _ _ _ _ _
      (marketInv_marketCodeStep _ _ _
        (marketInv_scanValuePatterns _ _ _ _ _
          (marketInv_scanKnownLabels _ _ _ _ _ _ hmd)))
  · simp only [metadataCellVal, Cell.isNA, Bool.false_eq_true, if_false]
    exact hmd

lemma marketInv_cellStep (rowIdx colIdx : Nat) (row : List Cell) (md : SheetMetadata)
    (hmd : marketInv md) : marketInv (metadataCellStep rowIdx colIdx row md) :=
  marketInv_cellVal rowIdx colIdx row (row.getD colIdx Cell.empty) md hmd

lemma foldl_preserve {α β : Type} {P : β → Prop} (f : β → α → β) :
    ∀ (l : List α) (b : β), P b → (∀ acc a, P acc → P (f acc a)) → P (l.foldl f b)
  | [], b, hb, _ => hb
  | a :: t, b, hb, hf => by
      rw [List.foldl_cons]
      exact foldl_preserve f t (f b a) (hf b a hb) hf

lemma marketInv_secondaryRowStep (rowIdx : Nat) (row : List Cell) (md : SheetMetadata)
    (hmd : marketInv md) : marketInv (metadataSecondaryRowStep rowIdx row md) := by
  rw [metadataSecondaryRowStep]
  by_cases hlen : 4 < row.length
  · rw [if_pos hlen]
    rcases row.getD 3 Cell.empty with _ | n3 | s3 | _ <;>
      rcases row.getD 4 Cell.empty with _ | n4 | s4 | _ <;>
      try exact hmd
    refine marketInv_addRaw _ _ ?_
    split_ifs <;> exact hmd
  · rw [if_neg hlen]
    exact hmd

lemma extract_market_valid (grid : List (List Cell)) (headerRow : Nat) :
    marketInv (extract_sheet_metadata grid headerRow) := by
  rw [extract_sheet_metadata]
  refine foldl_preserve _ _ _ ?_ ?_
  · rw [metadataPrimaryScan]
    refine foldl_preserve _ _ _ marketInv_empty ?_
    intro acc idx hacc
    rw [metadataRowScan]
    exact foldl_preserve _ _ _ hacc (fun acc2 colIdx hacc2 =>
      marketInv_cellStep idx colIdx (grid.getD idx []) acc2 hacc2)
  · intro acc idx hacc
    exact marketInv_secondaryRowStep idx (grid.getD idx []) acc hacc

lemma merge_retention (plan : List PlanRow) (rc : List RateRow) :
    ∀ p ∈ plan, ∃ m ∈ merge_and_calculate plan rc, m.keyRow = p := by
  intro p hp
  rw [merge_and_calculate]
  rcases h : rateMatches rc p with _ | ⟨r, rs⟩
  · refine ⟨⟨p.market_region, p.department, p.role_title, p.hours_allocated, 0, 0,
      p.hours_allocated * 0, p.hours_allocated * 0⟩,
      List.mem_flatMap.2 ⟨p, hp, ?_⟩, rfl⟩
    rw [h]
    exact List.mem_singleton.2 rfl
  · refine ⟨⟨p.market_region, p.department, p.role_title, p.hours_allocated,
      r.cost_rate, r.bill_rate, p.hours_allocated * r.cost_rate,
      p.hours_allocated * r.bill_rate⟩,
      List.mem_flatMap.2 ⟨p, hp, ?_⟩, rfl⟩
    rw [h]
    exact List.mem_map.2 ⟨r, List.mem_cons_self _ _, rfl⟩

lemma merge_calc (plan : List PlanRow) (rc : List RateRow) :
    ∀ m ∈ merge_and_calculate plan rc,
      m.forecasted_cost = m.hours_allocated * m.cost_rate ∧
      m.forecasted_revenue = m.hours_allocated * m.bill_rate := by
  intro m hm
  rw [merge_and_calculate] at hm
  rcases List.mem_flatMap.1 hm with ⟨p, hp, hmem⟩
  rcases h : rateMatches rc p with _ | ⟨r, rs⟩ <;> simp only [h] at hmem
  · rw [List.mem_singleton] at hmem
    subst hmem
    exact ⟨rfl, rfl⟩
  · rcases List.mem_map.1 hmem with ⟨r2, hr2, hEq⟩
    subst hEq
    exact ⟨rfl, rfl⟩

lemma merge_matched (plan : List PlanRow) (rc : List RateRow) :
    ∀ p ∈ plan, ∀ r ∈ rc, keyMatch r p = true →
      ∃ m ∈ merge_and_calculate plan rc, m.keyRow = p ∧ m.cost_rate = r.cost_rate ∧
        m.bill_rate = r.bill_rate ∧ m.forecasted_cost = p.hours_allocated * r.cost_rate ∧
        m.forecasted_revenue = p.hours_allocated * r.bill_rate := by
  intro p hp r hr hk
  have hrm : r ∈ rateMatches rc p := List.mem_filter.2 ⟨hr, hk⟩
  rw [merge_and_calculate]
  rcases h : rateMatches rc p with _ | ⟨r0, rs⟩
  · rw [h] at hrm
    exact absurd hrm (List.not_mem_nil r)
  · rw [h] at hrm
    refine ⟨⟨p.market_region, p.department, p.role_title, p.hours_allocated,
      r.cost_rate, r.bill_rate, p.hours_allocated * r.cost_rate,
      p.hours_allocated * r.bill_rate⟩,
      List.mem_flatMap.2 ⟨p, hp, ?_⟩, rfl, rfl, rfl, rfl, rfl⟩
    rw [h]
    exact List.mem_map.2 ⟨r, hrm, rfl⟩

lemma merge_unmatched (plan : List PlanRow) (rc : List RateRow) :
    ∀ m ∈ merge_and_calculate plan rc, rateMatches rc m.keyRow = [] →
      m.cost_rate = 0 ∧ m.bill_rate = 0 ∧ m.forecasted_cost = 0 ∧
      m.forecasted_revenue = 0 := by
  intro m hm hnone
  rw [merge_and_calculate] at hm
  rcases List.mem_flatMap.1 hm with ⟨p, hp, hmem⟩
  rcases h : rateMatches rc p with _ | ⟨r, rs⟩ <;> simp only [h] at hmem
  · rw [List.mem_singleton] at hmem
    subst hmem
    exact ⟨rfl, rfl, mul_zero _, mul_zero _⟩
  · rcases List.mem_map.1 hmem with ⟨r2, hr2, hEq⟩
    subst hEq
    have h2 : rateMatches rc p = [] := hnone
    rw [h] at h2
    exact absurd h2 (by simp)

lemma unmatchedCount_spec (rc : List FeRateRow) :
    ∀ plan : List FePlanRow,
      unmatchedCount plan rc =
        plan.countP (fun p => (rc.filter (fun r => feKeyMatch r p)).isEmpty)
  | [] => rfl
  | p :: t => by
      have ih := unmatchedCount_spec rc t
      rw [unmatchedCount, fe_merge_and_calculate] at ih ⊢
      rw [List.flatMap_cons, List.filter_append, List.length_append, ih,
        List.countP_cons]
      rcases h : rc.filter (fun r => feKeyMatch r p) with _ | ⟨r, rs⟩ <;>
        simp only [h]
      · simp [List.filter_cons]
        omega
      · have hz : (((r :: rs).map (fun r =>
            (⟨p.market_region, p.department, p.role, p.hours, r.rate, false,
              r.rate.map (fun x => p.hours * x)⟩ : FeMergedRow))).filter
            (fun m => m.leftOnly)).length = 0 := by
          rw [List.length_eq_zero, List.filter_eq_nil_iff]
          intro a ha
          rcases List.mem_map.1 ha with ⟨r2, _, hEq⟩
          subst hEq
          simp
        simp [hz]

@[simp] lemma logAppend_log (acc : EtlResults) (e : LogEntry) :
    (acc.logAppend e).processing_log = acc.processing_log ++ [e] := rfl

@[simp] lemma logAppend_allocations (acc : EtlResults) (e : LogEntry) :
    (acc.logAppend e).allocations = acc.allocations := rfl

@[simp] lemma logAppend_projects (acc : EtlResults) (e : LogEntry) :
    (acc.logAppend e).projects = acc.projects := rfl

@[simp] lemma addAllocations_log (acc : EtlResults) (b : PlanAllocations) :
    (acc.addAllocations b).processing_log = acc.processing_log := rfl

@[simp] lemma addAllocations_allocations (acc : EtlResults) (b : PlanAllocations) :
    (acc.addAllocations b).allocations = acc.allocations ++ [b] := rfl

@[simp] lemma addAllocations_projects (acc : EtlResults) (b : PlanAllocations) :
    (acc.addAllocations b).projects = acc.projects := rfl

@[simp] lemma addRateCard_log (acc : EtlResults) (b : RateCardResult) :
    (acc.addRateCard b).processing_log = acc.processing_log := rfl

@[simp] lemma addRateCard_allocations (acc : EtlResults) (b : RateCardResult) :
    (acc.addRateCard b).allocations = acc.allocations := rfl

@[simp] lemma addRateCard_projects (acc : EtlResults) (b : RateCardResult) :
    (acc.addRateCard b).projects = acc.projects := rfl

@[simp] lemma addActuals_log (acc : EtlResults) (b : TabularResult) :
    (acc.addActuals b).processing_log = acc.processing_log := rfl

@[simp] lemma addActuals_allocations (acc : EtlResults) (b : TabularResult) :
    (acc.addActuals b).allocations = acc.allocations := rfl

@[simp] lemma addActuals_projects (acc : EtlResults) (b : TabularResult) :
    (acc.addActuals b).projects = acc.projects := rfl

@[simp] lemma addCosts_log (acc : EtlResults) (b : TabularResult) :
    (acc.addCosts b).processing_log = acc.processing_log := rfl

@[simp] lemma addCosts_allocations (acc : EtlResults) (b : TabularResult) :
    (acc.addCosts b).allocations = acc.allocations := rfl

@[simp] lemma addCosts_projects (acc : EtlResults) (b : TabularResult) :
    (acc.addCosts b).projects = acc.projects := rfl

@[simp] lemma addProject_log (acc : EtlResults) (p : ProjectRecord) :
    (acc.addProject p).processing_log = acc.processing_log := rfl

@[simp] lemma addProject_allocations (acc : EtlResults) (p : ProjectRecord) :
    (acc.addProject p).allocations = acc.allocations := rfl

@[simp] lemma addProject_projects (acc : EtlResults) (p : ProjectRecord) :
    (acc.addProject p).projects = acc.projects ++ [p] := rfl

lemma processSheetStep_log (f c pt : String) (acc : EtlResults)
    (s : String × List (List Cell)) :
    (processSheetStep f c pt acc s).processing_log =
      acc.processing_log ++ sheetLogSpec f c pt s := by
  simp only [processSheetStep, sheetLogSpec, sheetRowCount]
  cases h1 : (detect_sheet_type s.1 == "skip" || detect_sheet_type s.1 == "unknown") with
  | true => simp
  | false =>
    cases h2 : (s.2.length == 0) with
    | true => simp
    | false =>
      by_cases h3 : find_header_row s.2 (detect_sheet_type s.1) < 0
      · simp [h3]
      · cases h4 : (detect_sheet_type s.1 == "plan") with
        | true =>
          by_cases h5 : 0 < (process_plan_sheet s.2 s.1
              (find_header_row s.2 (detect_sheet_type s.1)).toNat
              (generate_project_id c pt f s.1)).allocations.size
          · simp [h3, h5]
          · simp [h3, h5]
        | false =>
          cases h6 : (detect_sheet_type s.1 == "rate_card") with
          | true =>
            by_cases h7 : 0 < (process_rate_card_sheet s.2 s.1
                (find_header_row s.2 (detect_sheet_type s.1)).toNat).rows.length
            · simp [h3, h7]
            · simp [h3, h7]
          | false =>
            cases h8 : (detect_sheet_type s.1 == "actuals") with
            | true =>
              by_cases h9 : 0 < (process_actuals_sheet s.2 s.1
                  (find_header_row s.2 (detect_sheet_type s.1)).toNat
                  (generate_project_id c pt f s.1)).rows.length
              · simp [h3, h9]
              · simp [h3, h9]
            | false =>
              cases h10 : (detect_sheet_type s.1 == "costs") with
              | true =>
                by_cases h11 : 0 < (process_costs_sheet s.2 s.1
                    (find_header_row s.2 (detect_sheet_type s.1)).toNat
                    (generate_project_id c pt f s.1)).rows.length
                · simp [h3, h11]
                · simp [h3, h11]
              | false =>
                cases h12 : (detect_sheet_type s.1 == "investment_log") with
                | true => simp [h3]
                | false =>
                  cases h13 : (detect_sheet_type s.1 == "external_estimate") with
                  | true => simp [h3]
                  | false =>
                    cases h14 : (detect_sheet_type s.1 == "media") with
                    | true => simp [h3]
                    | false => simp [h3]

lemma process_workbook_log_aux (f c pt : String) :
    ∀ (sheets : List (String × List (List Cell))) (acc : EtlResults),
      (sheets.foldl (processSheetStep f c pt) acc).processing_log =
        acc.processing_log ++ sheets.flatMap (sheetLogSpec f c pt)
  | [], acc => by simp
  | s :: t, acc => by
      rw [List.foldl_cons, List.flatMap_cons,
        process_workbook_log_aux f c pt t (processSheetStep f c pt acc s),
        processSheetStep_log, List.append_assoc]

lemma lookupLast_append_project (xs : List (String × Cell)) (a : String × Cell)
    (k : String) (v : Cell) :
    lookupLast (xs ++ [a, (k, v)]) k = some v := by
  rw [lookupLast]
  have hrev : (xs ++ [a, (k, v)]).reverse = (k, v) :: a :: xs.reverse := by simp
  rw [hrev, List.find?_cons_of_pos _ (by simp)]
  rfl

lemma process_plan_projectIds (grid : List (List Cell)) (sheetName : String)
    (headerRow : Nat) (projectId : String) :
    ∀ pid ∈ (process_plan_sheet grid sheetName headerRow projectId).allocations.projectIds,
      pid = projectId := by
  intro pid hpid
  by_cases hw : (planWeekCols grid headerRow).isEmpty = true
  · simp only [process_plan_sheet, hw, if_true, PlanAllocations.projectIds] at hpid
    rcases List.mem_filterMap.1 hpid with ⟨row, hrow, hlook⟩
    rcases List.mem_map.1 hrow with ⟨r0, _, hEq⟩
    subst hEq
    rw [lookupLast_append_project] at hlook
    exact (Option.some.inj hlook).symm
  · simp only [process_plan_sheet, hw, Bool.false_eq_true, if_false,
      PlanAllocations.projectIds] at hpid
    rcases List.mem_map.1 hpid with ⟨rec, hrec, hEq⟩
    rcases List.mem_filter.1 hrec with ⟨hrec2, _⟩
    rcases List.mem_flatMap.1 hrec2 with ⟨cname, _, hrecmem⟩
    rcases List.mem_map.1 hrecmem with ⟨row, _, hEq2⟩
    subst hEq2
    exact hEq.symm.trans rfl

lemma pids_invariant_extend (acc : EtlResults) (b : PlanAllocations)
    (pr : ProjectRecord) (e : LogEntry)
    (h : ∀ pid ∈ allocationProjectIds acc, pid ∈ batchProjectIds acc)
    (hb : ∀ pid ∈ b.projectIds, pid = pr.project_id) :
    ∀ pid ∈ allocationProjectIds (((acc.addAllocations b).addProject pr).logAppend e),
      pid ∈ batchProjectIds (((acc.addAllocations b).addProject pr).logAppend e) := by
  intro pid hpid
  have hpid2 : pid ∈ (acc.allocations ++ [b]).flatMap PlanAllocations.projectIds := hpid
  show pid ∈ (acc.projects ++ [pr]).map ProjectRecord.project_id
  rw [List.map_append]
  rw [List.flatMap_append] at hpid2
  rcases List.mem_append.1 hpid2 with h' | h'
  · exact List.mem_append_left _ (h pid h')
  · refine List.mem_append_right _ ?_
    simp only [List.flatMap_cons, List.flatMap_nil, List.append_nil] at h'
    rw [hb pid h']
    simp

lemma pids_invariant_keep (acc : EtlResults) (pr : ProjectRecord) (e : LogEntry)
    (h : ∀ pid ∈ allocationProjectIds acc, pid ∈ batchProjectIds acc) :
    ∀ pid ∈ allocationProjectIds ((acc.addProject pr).logAppend e),
      pid ∈ batchProjectIds ((acc.addProject pr).logAppend e) := by
  intro pid hpid
  have hpid2 : pid ∈ allocationProjectIds acc := hpid
  show pid ∈ (acc.projects ++ [pr]).map ProjectRecord.project_id
  rw [List.map_append]
  exact List.mem_append_left _ (h pid hpid2)

lemma processSheetStep_pids (f c pt : String) (acc : EtlResults)
    (s : String × List (List Cell))
    (h : ∀ pid ∈ allocationProjectIds acc, pid ∈ batchProjectIds acc) :
    ∀ pid ∈ allocationProjectIds (processSheetStep f c pt acc s),
      pid ∈ batchProjectIds (processSheetStep f c pt acc s) := by
  intro pid hpid
  simp only [processSheetStep] at hpid ⊢
  by_cases h1 : (detect_sheet_type s.1 == "skip" || detect_sheet_type s.1 == "unknown") = true
  · rw [if_pos h1] at hpid ⊢
    exact h pid hpid
  · rw [if_neg h1] at hpid ⊢
    by_cases h2 : (s.2.length == 0) = true
    · rw [if_pos h2] at hpid ⊢
      exact h pid hpid
    · rw [if_neg h2] at hpid ⊢
      by_cases h3 : find_header_row s.2 (detect_sheet_type s.1) < 0
      · rw [if_pos h3] at hpid ⊢
        exact h pid hpid
      · rw [if_neg h3] at hpid ⊢
        by_cases h4 : (detect_sheet_type s.1 == "plan") = true
        · rw [if_pos h4] at hpid ⊢
          by_cases h5 : 0 < (process_plan_sheet s.2 s.1
              (find_header_row s.2 (detect_sheet_type s.1)).toNat
              (generate_project_id c pt f s.1)).allocations.size
          · rw [if_pos h5] at hpid ⊢
            refine pids_invariant_extend _ _ _ _ h ?_ pid hpid
            exact fun q hq => process_plan_projectIds _ _ _ _ q hq
          · rw [if_neg h5] at hpid ⊢
            exact pids_invariant_keep _ _ _ h pid hpid
        · rw [if_neg h4] at hpid ⊢
          by_cases h6 : (detect_sheet_type s.1 == "rate_card") = true
          · rw [if_pos h6] at hpid ⊢
            by_cases h7 : 0 < (process_rate_card_sheet s.2 s.1
                (find_header_row s.2 (detect_sheet_type s.1)).toNat).rows.length
            · rw [if_pos h7] at hpid ⊢
              exact h pid hpid
            · rw [if_neg h7] at hpid ⊢
              exact h pid hpid
          · rw [if_neg h6] at hpid ⊢
            by_cases h8 : (detect_sheet_type s.1 == "actuals") = true
            · rw [if_pos h8] at hpid ⊢
              by_cases h9 : 0 < (process_actuals_sheet s.2 s.1
                  (find_header_row s.2 (detect_sheet_type s.1)).toNat
                  (generate_project_id c pt f s.1)).rows.length
              · rw [if_pos h9] at hpid ⊢
                exact h pid hpid
              · rw [if_neg h9] at hpid ⊢
                exact h pid hpid
            · rw [if_neg h8] at hpid ⊢
              by_cases h10 : (detect_sheet_type s.1 == "costs") = true
              · rw [if_pos h10] at hpid ⊢
                by_cases h11 : 0 < (process_costs_sheet s.2 s.1
                    (find_header_row s.2 (detect_sheet_type s.1)).toNat
                    (generate_project_id c pt f s.1)).rows.length
                · rw [if_pos h11] at hpid ⊢
                  exact h pid hpid
                · rw [if_neg h11] at hpid ⊢
                  exact h pid hpid
              · rw [if_neg h10] at hpid ⊢
                by_cases h12 : (detect_sheet_type s.1 == "investment_log") = true
                · rw [if_pos h12] at hpid ⊢
                  exact h pid hpid
                · rw [if_neg h12] at hpid ⊢
                  by_cases h13 : (detect_sheet_type s.1 == "external_estimate") = true
                  · rw [if_pos h13] at hpid ⊢
                    exact h pid hpid
                  · rw [if_neg h13] at hpid ⊢
                    by_cases h14 : (detect_sheet_type s.1 == "media") = true
                    · rw [if_pos h14] at hpid ⊢
                      exact h pid hpid
                    · rw [if_neg h14] at hpid ⊢
                      exact h pid hpid

lemma process_workbook_pids_aux (f c pt : String) :
    ∀ (sheets : List (String × List (List Cell))) (acc : EtlResults),
      (∀ pid ∈ allocationProjectIds acc, pid ∈ batchProjectIds acc) →
      ∀ pid ∈ allocationProjectIds (sheets.foldl (processSheetStep f c pt) acc),
        pid ∈ batchProjectIds (sheets.foldl (processSheetStep f c pt) acc)
  | [], acc, h => h
  | s :: t, acc, h => by
      rw [List.foldl_cons]
      exact process_workbook_pids_aux f c pt t _ (processSheetStep_pids f c pt acc s h)

lemma find_header_row_cases (grid : List (List Cell)) (t : String) :
    find_header_row grid t = -1 ∨ ∃ r : Nat, find_header_row grid t = Int.ofNat r := by
  rw [find_header_row, findHeaderRowAux_eq]
  rcases pickBest_spec (headerCands (headerKeywords t) grid maxScanRows 0) (-1) 0
      (headerCands_pairwise _ _ _ _) with ⟨heq, _⟩ | ⟨i, s, _, heq, _, _, _⟩
  · rw [heq]
    exact Or.inl rfl
  · rw [heq]
    exact Or.inr ⟨i, rfl⟩

/-- C1: on a plan sheet whose header row is detected and whose
deduplicated columns are pairwise distinct (the condition under which
`pd.melt` succeeds), the melting step emits the qualifying (row, week)
cells one-to-one and in order — so the record count equals the count of
non-null, non-zero source cells and the emitted hours sum to the sum of
exactly those cells. -/
theorem plan_melt_conservation (grid : List (List Cell)) (sheetName : String)
    (headerRow : Nat) (projectId : String) (recs : List AllocRecord)
    (ht : detect_sheet_type sheetName = "plan")
    (hdr : find_header_row grid "plan" = Int.ofNat headerRow)
    (hnd : (planUniqueCols grid headerRow).Nodup)
    (hm : (process_plan_sheet grid sheetName headerRow projectId).allocations =
      PlanAllocations.melted recs) :
    recs.map (fun rec => rec.hours) = (meltCells grid headerRow).filter hoursQualifies ∧
    recs.length = ((meltCells grid headerRow).filter hoursQualifies).length ∧
    sumHours recs = sumCells ((meltCells grid headerRow).filter hoursQualifies) := by
  have h1 := process_plan_melted grid sheetName headerRow projectId recs hm
  refine ⟨h1, ?_, ?_⟩
  · rw [← h1, List.length_map]
  · rw [sumHours, sumCells, ← h1, List.map_map]
    rfl

/-- C1 witness: the "2025 Plan" sheet of the claim yields exactly one
allocation record, for week 1 with 10 hours. -/
theorem plan_melt_conservation_witness :
    (process_plan_sheet c1Grid "2025 Plan" 5 "P").allocations =
      PlanAllocations.melted c1Recs ∧
    c1Recs.length = 1 ∧
    sumHours c1Recs = 10 ∧
    ((meltCells c1Grid 5).filter hoursQualifies).length = 1 ∧
    sumCells ((meltCells c1Grid 5).filter hoursQualifies) = 10 := by
  have h := plan_melt_conservation c1Grid "2025 Plan" 5 "P" c1Recs
    (by decide) (by decide) (by decide) (by decide)
  refine ⟨by decide, by decide, by decide, ?_, ?_⟩
  · rw [← h.2.1]
    decide
  · rw [← h.2.2]
    decide

/-- C2: the rate-card merge is a left join on the exact three-part key —
every plan row survives into the output; every output row satisfies
forecasted_cost = hours × cost_rate and forecasted_revenue = hours ×
bill_rate; a row matching a rate-card entry carries that entry's rates;
a row matching nothing gets zero rates and zero derived fields; and
financial_etl's reported unmatched count is exactly the number of plan
rows with no matching rate-card key. -/
theorem rate_card_merge_left_join (plan : List PlanRow) (rc : List RateRow)
    (fePlan : List FePlanRow) (feRc : List FeRateRow) :
    (∀ p ∈ plan, ∃ m ∈ merge_and_calculate plan rc, m.keyRow = p) ∧
    (∀ m ∈ merge_and_calculate plan rc,
      m.forecasted_cost = m.hours_allocated * m.cost_rate ∧
      m.forecasted_revenue = m.hours_allocated * m.bill_rate) ∧
    (∀ p ∈ plan, ∀ r ∈ rc, keyMatch r p = true →
      ∃ m ∈ merge_and_calculate plan rc, m.keyRow = p ∧ m.cost_rate = r.cost_rate ∧
        m.bill_rate = r.bill_rate ∧ m.forecasted_cost = p.hours_allocated * r.cost_rate ∧
        m.forecasted_revenue = p.hours_allocated * r.bill_rate) ∧
    (∀ m ∈ merge_and_calculate plan rc, rateMatches rc m.keyRow = [] →
      m.cost_rate = 0 ∧ m.bill_rate = 0 ∧ m.forecasted_cost = 0 ∧
      m.forecasted_revenue = 0) ∧
    unmatchedCount fePlan feRc =
      fePlan.countP (fun p => (feRc.filter (fun r => feKeyMatch r p)).isEmpty) :=
  ⟨merge_retention plan rc, merge_calc plan rc, merge_matched plan rc,
   merge_unmatched plan rc, unmatchedCount_spec feRc fePlan⟩

/-- C2 witness: hours 10 joined to cost rate 50 and bill rate 120 yields
forecasted cost 500 and revenue 1200, and one unmatched plan row makes
the reported unmatched count 1. -/
theorem rate_card_merge_left_join_witness :
    (∃ m ∈ merge_and_calculate c2Plan c2Rate,
      m.keyRow = (⟨Cell.str "AMER", Cell.str "Eng", Cell.str "Dev", 10⟩ : PlanRow) ∧
      m.forecasted_cost = 500 ∧ m.forecasted_revenue = 1200) ∧
    unmatchedCount c2FePlan c2FeRate = 1 := by
  constructor
  · obtain ⟨m, hm, hkey, hc, hb, hfc, hfr⟩ :=
      (rate_card_merge_left_join c2Plan c2Rate c2FePlan c2FeRate).2.2.1
        ⟨Cell.str "AMER", Cell.str "Eng", Cell.str "Dev", 10⟩ (by decide)
        ⟨Cell.str "AMER", Cell.str "Eng", Cell.str "Dev", 50, 120⟩ (by decide) (by decide)
    exact ⟨m, hm, hkey, hfc.trans (by decide), hfr.trans (by decide)⟩
  · exact ((rate_card_merge_left_join c2Plan c2Rate c2FePlan c2FeRate).2.2.2.2).trans
      (by decide)

/-- C3 counterexample: normalization followed by the dedup pass is not
injective — the labels a, a, "a 1" collide to a, a_1, a_1 — and a null
label becomes the empty string, not the placeholder "unnamed", because
normalization maps NaN to "" before the dedup pass ever sees it. -/
theorem normalize_dedup_cex :
    normalize_then_dedup [Cell.str "a", Cell.str "a", Cell.str "a 1"] =
      ["a", "a_1", "a_1"] ∧
    ¬ (["a", "a_1", "a_1"] : List String).Nodup ∧
    normalize_then_dedup [Cell.empty] = [""] := by decide

/-- C3 (amended): the dedup pass realizes exactly the encounter-order
suffix rule on the normalized labels — the k-th repeat of a normalized
key r becomes r_k — and Role, role, Role yield role, role_1, role_2. -/
theorem normalize_dedup_characterization (labels : List Cell) :
    normalize_then_dedup labels =
      dedupSpecAssign [] (labels.map normalize_column_name) ∧
    normalize_then_dedup [Cell.str "Role", Cell.str "role", Cell.str "Role"] =
      ["role", "role_1", "role_2"] :=
  ⟨normalize_then_dedup_spec labels, by decide⟩

/-- C4 counterexample: the skip patterns are substring searches, not
exact matches — "x helper" is skipped — and the year default fires only
on a 20xx token, so "1999" classifies as unknown, not plan. -/
theorem detect_sheet_type_cex :
    detect_sheet_type "x helper" = "skip" ∧ detect_sheet_type "1999" = "unknown" := by
  decide

/-- C4 (amended): the classifier equals its specification — skip on a
`_` prefix, a helper or mapping substring, or the exact name info;
otherwise the first matching pattern group in the fixed priority order
plan, rate_card, actuals, costs, investment_log, external_estimate,
media, info, mapping; otherwise plan exactly on a 20xx token, else
unknown. -/
theorem detect_sheet_type_characterization (sheetName : String) :
    detect_sheet_type sheetName = detectSheetTypeSpec sheetName := by
  rw [detect_sheet_type, detectSheetTypeSpec, skipSheetMatch]
  by_cases h0 : (startsWithL ['_'] (pyStrip (asciiLower sheetName)).toList ||
      strContains (pyStrip (asciiLower sheetName)) "helper" ||
      strContains (pyStrip (asciiLower sheetName)) "mapping" ||
      pyStrip (asciiLower sheetName) == "info") = true
  · rw [if_pos h0, if_pos h0]
  · rw [if_neg h0, if_neg h0, sheetTypeRules]
    cases h1 : planNameMatch (pyStrip (asciiLower sheetName)) with
    | true => simp [List.find?, h1]
    | false =>
      cases h2 : rateCardNameMatch (pyStrip (asciiLower sheetName)) with
      | true => simp [List.find?, h1, h2]
      | false =>
        cases h3 : actualsNameMatch (pyStrip (asciiLower sheetName)) with
        | true => simp [List.find?, h1, h2, h3]
        | false =>
          cases h4 : costsNameMatch (pyStrip (asciiLower sheetName)) with
          | true => simp [List.find?, h1, h2, h3, h4]
          | false =>
            cases h5 : investmentLogNameMatch (pyStrip (asciiLower sheetName)) with
            | true => simp [List.find?, h1, h2, h3, h4, h5]
            | false =>
              cases h6 : externalEstimateNameMatch (pyStrip (asciiLower sheetName)) with
              | true => simp [List.find?, h1, h2, h3, h4, h5, h6]
              | false =>
                cases h7 : mediaNameMatch (pyStrip (asciiLower sheetName)) with
                | true => simp [List.find?, h1, h2, h3, h4, h5, h6, h7]
                | false =>
                  cases h8 : infoNameMatch (pyStrip (asciiLower sheetName)) with
                  | true => simp [List.find?, h1, h2, h3, h4, h5, h6, h7, h8]
                  | false =>
                    cases h9 : mappingNameMatch (pyStrip (asciiLower sheetName)) with
                    | true => simp [List.find?, h1, h2, h3, h4, h5, h6, h7, h8, h9]
                    | false => simp [List.find?, h1, h2, h3, h4, h5, h6, h7, h8, h9]

/-- C5: the header locator returns −1 or a row index; it returns −1
exactly when no scanned candidate row (≥ 3 non-null cells) scores above
0; and a returned index points at a candidate row with a strictly
positive score that is maximal over the scan, strictly beating every
earlier candidate (ties keep the first row). -/
theorem find_header_row_spec (grid : List (List Cell)) (t : String) :
    (find_header_row grid t = -1 ∨
      ∃ r : Nat, find_header_row grid t = Int.ofNat r) ∧
    (find_header_row grid t = -1 ↔
      ∀ m, m < min maxScanRows grid.length →
        3 ≤ nonNullCount (grid.getD m []) →
        rowScore (headerKeywords t) (grid.getD m []) = 0) ∧
    (∀ r : Nat, find_header_row grid t = Int.ofNat r →
      3 ≤ nonNullCount (grid.getD r []) ∧
      0 < rowScore (headerKeywords t) (grid.getD r []) ∧
      (∀ m, m < min maxScanRows grid.length →
        3 ≤ nonNullCount (grid.getD m []) →
        rowScore (headerKeywords t) (grid.getD m []) ≤
          rowScore (headerKeywords t) (grid.getD r [])) ∧
      (∀ m, m < r → 3 ≤ nonNullCount (grid.getD m []) →
        rowScore (headerKeywords t) (grid.getD m []) <
          rowScore (headerKeywords t) (grid.getD r []))) :=
  ⟨find_header_row_cases grid t, find_header_row_neg_iff grid t, fun r hr =>
    (find_header_row_pos_spec grid t r hr).2⟩

/-- C6 counterexample: a skipped sheet produces no processing-log entry
at all, and a failed header scan is logged with the message "Could not
find header row", not "Could not detect header row". -/
theorem processing_log_cex :
    (process_workbook c6SkipBook "f.xlsx" "Client" "Proj").processing_log = [] ∧
    (process_workbook c6ErrBook "f.xlsx" "Client" "Proj").processing_log =
      [⟨"2025 Plan", "plan", "error", none, some "Could not find header row"⟩] := by
  decide

/-- C6 (amended): the processing log is exactly the concatenation of the
per-sheet contributions — nothing for skipped, unknown-type or empty
sheets; one error entry "Could not find header row" when the header scan
fails; otherwise one success entry with the processor's row count. -/
theorem processing_log_characterization (sheets : List (String × List (List Cell)))
    (f c pt : String) :
    (process_workbook sheets f c pt).processing_log =
      sheets.flatMap (sheetLogSpec f c pt) := by
  rw [process_workbook, process_workbook_log_aux]
  rfl

/-- C7 counterexample: the bare value TOTAL next to a Market label is
accepted by the validator (only composite labels such as "total hours"
are blocklisted, and TOTAL is a ≤ 6 character uppercase alphabetic
token) and is captured as the market. -/
theorem market_key_validated_cex :
    getKeyCell (extract_sheet_metadata c7Grid 1).configuration "market" =
      some (Cell.str "TOTAL") ∧
    is_valid_market_value (Cell.str "TOTAL") = true := by decide

/-- C7 (amended): everything metadata extraction ever stores under the
configuration market key passes `is_valid_market_value` — the whitelist,
the composite-label blocklist, or the ≤ 6 character all-uppercase
alphabetic test applied to the upper-cased value; this test accepts
TOTAL. -/
theorem market_key_validated (grid : List (List Cell)) (headerRow : Nat) :
    ∀ v, getKeyCell (extract_sheet_metadata grid headerRow).configuration "market" =
        some v → is_valid_market_value v = true :=
  extract_market_valid grid headerRow

/-- C7 witness: applying the invariant to the concrete grid that stores
TOTAL under the market key. -/
theorem market_key_validated_witness :
    is_valid_market_value (Cell.str "TOTAL") = true :=
  market_key_validated c7Grid 1 (Cell.str "TOTAL") (by decide)

/-- C8 counterexample: the scan stops after 60 rows, so blank-row
insertion is not generally index-shifting — a grid whose header sits at
index 59 is found, but prepending one blank row pushes it out of the
scan window and the locator returns −1 instead of index 60. -/
theorem header_blank_shift_cex :
    find_header_row c8Grid "plan" = Int.ofNat 59 ∧
    find_header_row ([] :: c8Grid) "plan" = -1 := by decide

/-- C8 (amended): as long as the shifted header still lies inside the
60-row scan window, prepending fully blank rows shifts the returned
index by their number and leaves the detected row's content unchanged. -/
theorem header_blank_shift (grid : List (List Cell)) (t : String) (r : Nat)
    (blanks : List (List Cell))
    (hblank : ∀ row ∈ blanks, ∀ c ∈ row, c = Cell.empty)
    (hfind : find_header_row grid t = Int.ofNat r)
    (hlt : r + blanks.length < maxScanRows) :
    find_header_row (blanks ++ grid) t = Int.ofNat (r + blanks.length) ∧
    (blanks ++ grid).getD (r + blanks.length) [] = grid.getD r [] := by
  refine ⟨find_header_row_blank_shift grid t r blanks hblank hfind hlt, ?_⟩
  rw [List.getD_append_right]
  · congr 1
    omega
  · omega

/-- C8 witness: one blank row in front of a directly detectable header
shifts the found index from 0 to 1 and preserves the header row. -/
theorem header_blank_shift_witness :
    find_header_row ([[Cell.empty]] ++ c8wGrid) "plan" = Int.ofNat (0 + 1) ∧
    ([[Cell.empty]] ++ c8wGrid).getD (0 + 1) [] = c8wGrid.getD 0 [] :=
  header_blank_shift c8wGrid "plan" 0 [[Cell.empty]] (by decide) (by decide) (by decide)

/-- C9: after processing a workbook, every project_id occurring in the
aggregated allocations output also occurs among the project records of
the same batch. -/
theorem allocations_reference_projects (sheets : List (String × List (List Cell)))
    (f c pt : String) :
    ∀ pid ∈ allocationProjectIds (process_workbook sheets f c pt),
      pid ∈ batchProjectIds (process_workbook sheets f c pt) := by
  rw [process_workbook]
  refine process_workbook_pids_aux f c pt sheets emptyResults ?_
  intro pid hpid
  exact absurd hpid (by simp [allocationProjectIds, emptyResults])

/-- C9 witness: the one-sheet plan workbook yields an allocation whose
project_id also names a produced project record. -/
theorem allocations_reference_projects_witness :
    "Client|Proj|f.xlsx|2025 Plan" ∈
      allocationProjectIds (process_workbook c9Sheets "f.xlsx" "Client" "Proj") ∧
    "Client|Proj|f.xlsx|2025 Plan" ∈
      batchProjectIds (process_workbook c9Sheets "f.xlsx" "Client" "Proj") :=
  ⟨by decide,
   allocations_reference_projects c9Sheets "f.xlsx" "Client" "Proj" _ (by decide)⟩

/-- C10: the rate-card type is custom exactly when the lower-cased sheet
name contains "custom" (even if it also contains "ext"), external
exactly when it contains "ext" but not "custom", and standard exactly
when it contains neither. -/
theorem rate_card_type_precedence (grid : List (List Cell)) (sheetName : String)
    (headerRow : Nat) :
    ((process_rate_card_sheet grid sheetName headerRow).rate_card_type = "custom" ↔
      strContains (asciiLower sheetName) "custom" = true) ∧
    ((process_rate_card_sheet grid sheetName headerRow).rate_card_type = "external" ↔
      (strContains (asciiLower sheetName) "ext" = true ∧
        strContains (asciiLower sheetName) "custom" = false)) ∧
    ((process_rate_card_sheet grid sheetName headerRow).rate_card_type = "standard" ↔
      (strContains (asciiLower sheetName) "custom" = false ∧
        strContains (asciiLower sheetName) "ext" = false)) := by
  have hrct : (process_rate_card_sheet grid sheetName headerRow).rate_card_type =
      rate_card_type_of sheetName := rfl
  rw [hrct]
  simp only [rate_card_type_of]
  cases hc : strContains (asciiLower sheetName) "custom" <;>
    cases he : strContains (asciiLower sheetName) "ext" <;> decide

/-- C10 witness: a sheet name containing both substrings gets type
custom. -/
theorem rate_card_type_precedence_witness :
    (process_rate_card_sheet [] "Custom Ext Rates" 0).rate_card_type = "custom" ∧
    strContains (asciiLower "Custom Ext Rates") "ext" = true := by
  constructor
  · exact (rate_card_type_precedence [] "Custom Ext Rates" 0).1.mpr (by decide)
  · decide
